import Mathlib

/-!
Verification of the state-synchronization core of `music_app_server.py`:
the now-playing change detector (`_watch_now_loop`), the SSE event bus
(`_sse_subscribe` / `_sse_publish`), the subscriber stream (`sse_events`),
and the artwork cache (`_safe_slug`, `_album_cache_path`,
`_try_read_album_cache`, `_write_album_cache`, `_album_art_bytes`, `artwork`).

Python strings are modelled by Lean `String` (logically a list of
characters); Python floats (track positions) are modelled by rationals,
which is faithful for the ordering comparisons the code performs;
Python ints by `Nat`.  `time.time()` readings are inputs to the model.
-/

namespace MusicApp

set_option maxRecDepth 10000

/-- Python `str.strip()` on the character list of a string: drop whitespace
from both ends.  (Python strips Unicode whitespace; the ASCII predicate
`Char.isWhitespace` agrees on all inputs relevant here.) -/
def pyStripList (l : List Char) : List Char :=
  ((l.dropWhile Char.isWhitespace).reverse.dropWhile Char.isWhitespace).reverse

/-- Python `s.strip()` as a `String` operation. -/
def pyStrip (s : String) : String :=
  ⟨pyStripList s.data⟩

/-- One successful sample of `_get_now_playing_dict()` as consumed by
`_watch_now_loop`: the fields `pid`, `state`, `title`, `artist`, `album`
and `position` of the returned dict (the loop reads no others; `pid` is
`now.get('pid') or ''`, `position` is `float(now.get('position') or 0.0)`). -/
structure NowSample where
  pid : String
  st : String
  title : String
  artist : String
  album : String
  pos : ℚ
deriving DecidableEq, Repr

/-- The loop's view of the probe-failure return `{"state": "unknown"}` of
`_get_now_playing_dict` (every other field read through `.get` defaults:
strings to `''`, position to `0.0`). -/
def unknownNow : NowSample :=
  { pid := "", st := "unknown", title := "", artist := "", album := "", pos := 0 }

/-- `meta_key = f"{title}|{artist}|{album}"` over the stripped fields,
exactly as computed in `_watch_now_loop`. -/
def nowKey (s : NowSample) : String :=
  pyStrip s.title ++ "|" ++ pyStrip s.artist ++ "|" ++ pyStrip s.album

/-- The local bookkeeping of `_watch_now_loop`: `last_pid`, `last_state`,
`last_meta_key`, `last_pos`, all initialized to `None`. -/
structure NowLoopSt where
  lastPid : Option String
  lastState : Option String
  lastMetaKey : Option String
  lastPos : Option ℚ
deriving DecidableEq, Repr

/-- Initial loop bookkeeping. -/
def initNowLoop : NowLoopSt :=
  { lastPid := none, lastState := none, lastMetaKey := none, lastPos := none }

/-- The fields of the shared `_last_snapshot` record owned by the
now-playing loop: `now` (the last stored sample dict, initially `None`)
and `art_tok` (the artwork token). -/
structure NowSnap where
  now : Option NowSample
  artTok : Nat
deriving DecidableEq, Repr

/-- `prev.get('pid') or ''` where `prev = _last_snapshot.get('now') or {}`. -/
def prevPid (snap : NowSnap) : String :=
  match snap.now with
  | some p => p.pid
  | none => ""

/-- `prev_key = f"..."` built in `_watch_now_loop` from the stripped fields
of `_last_snapshot['now']` (an absent snapshot gives `"||"`). -/
def prevKey (snap : NowSnap) : String :=
  match snap.now with
  | some p => nowKey p
  | none => "||"

/-- `q + 3/2` computed on the numerator/denominator representation (kept
in this explicit form so that it evaluates by kernel reduction;
`addThreeHalves_eq` below proves it equal to `q + 3/2`). -/
def addThreeHalves (q : ℚ) : ℚ :=
  mkRat (2 * q.num + 3 * (q.den : Int)) (2 * q.den)

theorem addThreeHalves_eq (q : ℚ) : addThreeHalves q = q + 3 / 2 := by
  unfold addThreeHalves
  rw [Rat.mkRat_eq_div]
  have hden : ((q.den : ℚ)) ≠ 0 := by
    exact_mod_cast q.den_ne_zero
  have h2den : ((2 * q.den : ℚ)) ≠ 0 := by
    simp [hden]
  push_cast
  rw [div_eq_iff h2den]
  have hnum : (q.num : ℚ) = q * (q.den : ℚ) :=
    (div_eq_iff hden).mp (Rat.num_div_den q)
  rw [hnum]
  ring

theorem rat_blt_iff (a b : ℚ) : Rat.blt a b = true ↔ a < b := Iff.rfl

/-- The restart test of `_watch_now_loop`:
`pos is not None and last_pos is not None and (pos + 1.5) < last_pos`. -/
def restartedB (ls : NowLoopSt) (s : NowSample) : Bool :=
  match ls.lastPos with
  | some lp => Rat.blt (addThreeHalves s.pos) lp
  | none => false

theorem restartedB_iff (ls : NowLoopSt) (s : NowSample) :
    restartedB ls s = true ↔ ∃ lp, ls.lastPos = some lp ∧ s.pos + 3 / 2 < lp := by
  unfold restartedB
  cases h : ls.lastPos with
  | none => simp
  | some lp =>
    rw [rat_blt_iff, addThreeHalves_eq]
    simp

/-- The token-bump condition of `_watch_now_loop` (line 444):
`(pid and pid != prev_pid) or (not pid and meta_key and meta_key != prev_key)
or restarted`. -/
def bumpB (ls : NowLoopSt) (snap : NowSnap) (s : NowSample) : Bool :=
  (s.pid != "" && s.pid != prevPid snap) ||
    (s.pid == "" && nowKey s != "" && nowKey s != prevKey snap) ||
    restartedB ls s

/-- Result of one iteration of `_watch_now_loop` on a successful sample:
the updated local bookkeeping, the updated now-loop-owned snapshot fields,
and the artwork token carried by the published `now` event, if one was
published this tick. -/
structure NowTickOut where
  ls : NowLoopSt
  snap : NowSnap
  ev : Option Nat
deriving DecidableEq, Repr

/-- The per-tick trigger of `_watch_now_loop`:
`changed or meta_changed or restarted`, where
`changed = (pid != last_pid) or (st != last_state)` and
`meta_changed = (meta_key != last_meta_key) and bool(meta_key)`. -/
def firesB (ls : NowLoopSt) (s : NowSample) : Bool :=
  (ls.lastPid != some s.pid) || (ls.lastState != some s.st) ||
    ((some (nowKey s) != ls.lastMetaKey) && (nowKey s != "")) ||
    restartedB ls s

/-- One iteration of `_watch_now_loop` on sample `s`, with `clockMs` the
value `int(time.time() * 1000)` would return during this tick.  Mirrors
the loop body: compute `changed`, `meta_changed`, `restarted`; if any
holds, update the bookkeeping, conditionally bump `art_tok`, store the
sample into `_last_snapshot['now']` and publish one `now` event carrying
the (possibly bumped) token; otherwise only refresh `last_pos`.
(`pos` is never `None` for a dict produced by `_get_now_playing_dict`,
so `last_pos = pos if pos is not None else last_pos` stores `pos`.) -/
def nowTick (ls : NowLoopSt) (snap : NowSnap) (s : NowSample) (clockMs : Nat) :
    NowTickOut :=
  if firesB ls s then
    let tok := if bumpB ls snap s then clockMs else snap.artTok
    { ls := { lastPid := some s.pid, lastState := some s.st,
              lastMetaKey := some (nowKey s), lastPos := some s.pos },
      snap := { now := some s, artTok := tok },
      ev := some tok }
  else
    { ls := { ls with lastPos := some s.pos }, snap := snap, ev := none }

/-- Run of `_watch_now_loop` over a list of (sample, clock) ticks. -/
def nowRun (ls : NowLoopSt) (snap : NowSnap) :
    List (NowSample × Nat) → NowLoopSt × NowSnap
  | [] => (ls, snap)
  | (s, c) :: rest =>
    let t := nowTick ls snap s c
    nowRun t.ls t.snap rest

/-- Artwork tokens of the `now` events published along a run, in order. -/
def nowRunEvents (ls : NowLoopSt) (snap : NowSnap) :
    List (NowSample × Nat) → List Nat
  | [] => []
  | (s, c) :: rest =>
    let t := nowTick ls snap s c
    t.ev.toList ++ nowRunEvents t.ls t.snap rest

/-- The stripped metadata tuple of a sample, the claims' notion of the
track's `(title, artist, album)` identity. -/
def metaTuple (s : NowSample) : String × String × String :=
  (pyStrip s.title, pyStrip s.artist, pyStrip s.album)

/-- The claims' notion of "the audible track's identity is believed
changed" at a tick, stated from the spec's words: a non-empty identifier
transition, a non-empty metadata-tuple transition, or a detected
restart. -/
def claimIdentityChangedB (ls : NowLoopSt) (snap : NowSnap) (s : NowSample) : Bool :=
  (s.pid != "" && prevPid snap != "" && s.pid != prevPid snap) ||
    (decide (metaTuple s ≠ (match snap.now with
       | some p => metaTuple p
       | none => ("", "", ""))) && decide (metaTuple s ≠ ("", "", ""))) ||
    restartedB ls s

/-- Relation between the loop's local bookkeeping and the snapshot record:
both are `None`/empty initially, and afterwards both reflect exactly the
last stored sample.  `_watch_now_loop` updates them together. -/
def NowInv (ls : NowLoopSt) (snap : NowSnap) : Prop :=
  (ls.lastPid = none ∧ ls.lastState = none ∧ ls.lastMetaKey = none ∧ snap.now = none) ∨
    ∃ p, snap.now = some p ∧ ls.lastPid = some p.pid ∧ ls.lastState = some p.st ∧
      ls.lastMetaKey = some (nowKey p)

theorem nowInv_init (tok : Nat) : NowInv initNowLoop ⟨none, tok⟩ := by
  left; exact ⟨rfl, rfl, rfl, rfl⟩

theorem nowInv_tick (ls : NowLoopSt) (snap : NowSnap) (s : NowSample) (c : Nat)
    (h : NowInv ls snap) :
    NowInv (nowTick ls snap s c).ls (nowTick ls snap s c).snap := by
  by_cases hf : firesB ls s
  · simp only [nowTick, hf, if_true]
    exact Or.inr ⟨s, rfl, rfl, rfl, rfl⟩
  · simp only [nowTick, hf, if_false, Bool.false_eq_true]
    rcases h with ⟨h1, h2, h3, h4⟩ | ⟨p, h1, h2, h3, h4⟩
    · exact Or.inl ⟨h1, h2, h3, h4⟩
    · exact Or.inr ⟨p, h1, h2, h3, h4⟩

theorem tok_cases (ls : NowLoopSt) (snap : NowSnap) (s : NowSample) (c : Nat) :
    (nowTick ls snap s c).snap.artTok = snap.artTok ∨
      (nowTick ls snap s c).snap.artTok = c := by
  by_cases hf : firesB ls s
  · by_cases hb : bumpB ls snap s
    · simp [nowTick, hf, hb]
    · simp [nowTick, hf, hb]
  · simp [nowTick, hf]

/-- Under the bookkeeping invariant, the code's bump condition forces the
tick to fire. -/
theorem bump_implies_fires (ls : NowLoopSt) (snap : NowSnap) (s : NowSample)
    (hinv : NowInv ls snap) (hb : bumpB ls snap s = true) :
    firesB ls s = true := by
  simp only [bumpB, Bool.or_eq_true, Bool.and_eq_true, bne_iff_ne, ne_eq,
    beq_iff_eq] at hb
  simp only [firesB, Bool.or_eq_true, Bool.and_eq_true, bne_iff_ne, ne_eq]
  rcases hb with (⟨hne, hdiff⟩ | ⟨⟨hpe, hk⟩, hdiff⟩) | hr
  · -- non-empty pid differing from the snapshot's pid
    rcases hinv with ⟨h1, _, _, _⟩ | ⟨p, hp, h1, _, _⟩
    · left; left; left; simp [h1]
    · have hpp : prevPid snap = p.pid := by simp [prevPid, hp]
      rw [hpp] at hdiff
      left; left; left
      rw [h1]
      simp only [Option.some.injEq]
      exact fun h => hdiff h.symm
  · -- empty pid, meta key differing from the snapshot's key
    rcases hinv with ⟨_, _, h3, _⟩ | ⟨p, hp, _, _, h3⟩
    · left; right
      rw [h3]
      exact ⟨by simp, hk⟩
    · have hpk : prevKey snap = nowKey p := by simp [prevKey, hp]
      rw [hpk] at hdiff
      left; right
      rw [h3]
      exact ⟨by simpa using hdiff, hk⟩
  · right; exact hr

/-- If the code's bump condition holds and the bookkeeping invariant
holds, the tick fires and the token is set to the tick's clock. -/
theorem bump_tok (ls : NowLoopSt) (snap : NowSnap) (s : NowSample) (c : Nat)
    (hinv : NowInv ls snap) (hb : bumpB ls snap s = true) :
    (nowTick ls snap s c).snap.artTok = c ∧ (nowTick ls snap s c).ev = some c := by
  have hf := bump_implies_fires ls snap s hinv hb
  simp [nowTick, hf, hb]

theorem nowRun_append (l1 l2 : List (NowSample × Nat)) :
    ∀ (ls : NowLoopSt) (snap : NowSnap),
      nowRun ls snap (l1 ++ l2) =
        nowRun (nowRun ls snap l1).1 (nowRun ls snap l1).2 l2 := by
  induction l1 with
  | nil => intro ls snap; rfl
  | cons x rest ih =>
    intro ls snap
    obtain ⟨s, c⟩ := x
    simp only [List.cons_append, nowRun]
    exact ih _ _

/-- Well-clocked inputs for a run starting at token `tok`: every tick's
millisecond clock exceeds `tok`, and the clocks are strictly increasing
(the loop sleeps at least 0.8 s between ticks, so consecutive
`int(time.time() * 1000)` readings strictly increase whenever the wall
clock is not stepped backwards). -/
def ClockOK (tok : Nat) (inputs : List (NowSample × Nat)) : Prop :=
  (∀ x ∈ inputs, tok < x.2) ∧ (inputs.map Prod.snd).Pairwise (· < ·)

instance (tok : Nat) (inputs : List (NowSample × Nat)) :
    Decidable (ClockOK tok inputs) := by
  unfold ClockOK; infer_instance

/-- Invariants of a run under well-ordered clocks: the bookkeeping
invariant is preserved, the artwork token never decreases, and it stays
below every bound dominating the initial token and all consumed clocks. -/
theorem nowRun_inv_clock (inputs : List (NowSample × Nat)) :
    ∀ (ls : NowLoopSt) (snap : NowSnap), NowInv ls snap →
      ClockOK snap.artTok inputs →
      NowInv (nowRun ls snap inputs).1 (nowRun ls snap inputs).2 ∧
      snap.artTok ≤ (nowRun ls snap inputs).2.artTok ∧
      ∀ d, snap.artTok < d → (∀ x ∈ inputs, x.2 < d) →
        (nowRun ls snap inputs).2.artTok < d := by
  induction inputs with
  | nil => exact fun ls snap hinv _ => ⟨hinv, le_refl _, fun d hd _ => hd⟩
  | cons x rest ih =>
    intro ls snap hinv hck
    obtain ⟨s, c⟩ := x
    obtain ⟨hlt, hpw⟩ := hck
    have htc : snap.artTok < c := hlt (s, c) (List.mem_cons_self _ _)
    rw [List.map_cons] at hpw
    have hpw' := List.pairwise_cons.mp hpw
    set t := nowTick ls snap s c with ht
    have hinv' : NowInv t.ls t.snap := nowInv_tick ls snap s c hinv
    have htok : t.snap.artTok = snap.artTok ∨ t.snap.artTok = c :=
      tok_cases ls snap s c
    have hck' : ClockOK t.snap.artTok rest := by
      constructor
      · intro y hy
        rcases htok with h | h
        · rw [h]; exact hlt y (List.mem_cons_of_mem _ hy)
        · rw [h]; exact hpw'.1 y.2 (List.mem_map_of_mem Prod.snd hy)
      · exact hpw'.2
    obtain ⟨ih1, ih2, ih3⟩ := ih t.ls t.snap hinv' hck'
    have hrun : nowRun ls snap ((s, c) :: rest) = nowRun t.ls t.snap rest := rfl
    refine ⟨hrun ▸ ih1, ?_, ?_⟩
    · have h1 : snap.artTok ≤ t.snap.artTok := by
        rcases htok with h | h
        · rw [h]
        · rw [h]; exact le_of_lt htc
      rw [hrun]; exact le_trans h1 ih2
    · intro d hd hall
      have h1 : t.snap.artTok < d := by
        rcases htok with h | h
        · rw [h]; exact hd
        · rw [h]; exact hall (s, c) (List.mem_cons_self _ _)
      rw [hrun]
      exact ih3 d h1 (fun y hy => hall y (List.mem_cons_of_mem _ hy))

/-- A `ClockOK` run restricted to a prefix is still well-clocked. -/
theorem clockOK_restrict (tok : Nat) (l1 l2 : List (NowSample × Nat))
    (h : ClockOK tok (l1 ++ l2)) : ClockOK tok l1 := by
  obtain ⟨hlt, hpw⟩ := h
  refine ⟨fun x hx => hlt x (List.mem_append_left _ hx), ?_⟩
  rw [List.map_append] at hpw
  exact (List.pairwise_append.mp hpw).1

/-- After consuming a well-clocked prefix, the remaining inputs are
well-clocked relative to the token the run has reached. -/
theorem clockOK_after (tok : Nat) (l1 l2 : List (NowSample × Nat))
    (ls : NowLoopSt) (snap : NowSnap) (hinv : NowInv ls snap)
    (htok : snap.artTok = tok) (h : ClockOK tok (l1 ++ l2)) :
    ClockOK (nowRun ls snap l1).2.artTok l2 := by
  obtain ⟨hlt, hpw⟩ := h
  rw [List.map_append] at hpw
  obtain ⟨hpw1, hpw2, hcross⟩ := List.pairwise_append.mp hpw
  have hck1 : ClockOK snap.artTok l1 := by
    rw [htok]
    exact ⟨fun x hx => hlt x (List.mem_append_left _ hx), hpw1⟩
  obtain ⟨_, _, h3⟩ := nowRun_inv_clock l1 ls snap hinv hck1
  refine ⟨?_, hpw2⟩
  intro y hy
  refine h3 y.2 ?_ ?_
  · rw [htok]; exact hlt y (List.mem_append_right _ hy)
  · intro z hz
    exact hcross z.2 (List.mem_map_of_mem Prod.snd hz) y.2
      (List.mem_map_of_mem Prod.snd hy)

/-- A run of `_watch_now_loop` from process start: empty bookkeeping and
an initial artwork token `tok₀` (`int(time.time())` at module load). -/
def runAfter (tok₀ : Nat) (l : List (NowSample × Nat)) : NowLoopSt × NowSnap :=
  nowRun initNowLoop ⟨none, tok₀⟩ l

theorem runAfter_snoc (tok₀ : Nat) (l : List (NowSample × Nat)) (s : NowSample)
    (c : Nat) :
    runAfter tok₀ (l ++ [(s, c)]) =
      ((nowTick (runAfter tok₀ l).1 (runAfter tok₀ l).2 s c).ls,
       (nowTick (runAfter tok₀ l).1 (runAfter tok₀ l).2 s c).snap) := by
  unfold runAfter
  rw [nowRun_append]
  rfl

theorem runAfter_inv (tok₀ : Nat) (pre rest : List (NowSample × Nat))
    (hck : ClockOK tok₀ (pre ++ rest)) :
    NowInv (runAfter tok₀ pre).1 (runAfter tok₀ pre).2 ∧
      ClockOK (runAfter tok₀ pre).2.artTok rest := by
  constructor
  · exact (nowRun_inv_clock pre initNowLoop ⟨none, tok₀⟩ (nowInv_init tok₀)
      (clockOK_restrict tok₀ pre rest hck)).1
  · exact clockOK_after tok₀ pre rest initNowLoop ⟨none, tok₀⟩
      (nowInv_init tok₀) rfl hck

/-- Sample used by the C1 counterexample: metadata tuple
`("x", "|y", "z")` — the artist field contains the `|` separator. -/
def c1sA : NowSample :=
  { pid := "", st := "playing", title := "x", artist := "|y", album := "z", pos := 10 }

/-- Second C1 sample: metadata tuple `("x|", "y", "z")`, a different
tuple whose joined `title|artist|album` key `"x||y|z"` coincides with
that of `c1sA`. -/
def c1sB : NowSample :=
  { pid := "", st := "playing", title := "x|", artist := "y", album := "z", pos := 20 }

/-- C1 is false as stated: the loop detects metadata transitions through
the joined string `f"{title}|{artist}|{album}"`, so a non-empty
metadata-tuple transition whose fields contain `|` can leave the joined
key unchanged; the tick then detects no change and the artwork token
does not increase.  Concretely, after observing `c1sA` the sample `c1sB`
is a non-empty tuple transition (the claim's "identity believed
changed") yet the token after the second tick equals the token after the
first. -/
theorem c1_counterexample :
    claimIdentityChangedB (runAfter 0 [(c1sA, 1000)]).1
        (runAfter 0 [(c1sA, 1000)]).2 c1sB = true ∧
      ClockOK 0 [(c1sA, 1000), (c1sB, 2000)] ∧
      (runAfter 0 [(c1sA, 1000), (c1sB, 2000)]).2.artTok =
        (runAfter 0 [(c1sA, 1000)]).2.artTok := by
  decide

/-- C1 (amended): along any run of `_watch_now_loop` whose tick clocks
exceed the initial token and strictly increase, the artwork token (i) is
set to the tick's clock and strictly increases at every tick satisfying
the code's identity-change condition (non-empty identifier differing
from the stored snapshot's, or empty identifier with a changed joined
`title|artist|album` key, or a detected restart), (ii) never decreases,
and (iii) takes strictly increasing — hence pairwise distinct — values
at any two such identity-change ticks. -/
theorem c1_artwork_token (tok₀ : Nat) (inputs : List (NowSample × Nat))
    (hck : ClockOK tok₀ inputs) :
    (∀ pre s c post, inputs = pre ++ (s, c) :: post →
        bumpB (runAfter tok₀ pre).1 (runAfter tok₀ pre).2 s = true →
        (runAfter tok₀ (pre ++ [(s, c)])).2.artTok = c ∧
        (runAfter tok₀ pre).2.artTok <
          (runAfter tok₀ (pre ++ [(s, c)])).2.artTok) ∧
    (∀ pre rest, inputs = pre ++ rest →
        (runAfter tok₀ pre).2.artTok ≤ (runAfter tok₀ inputs).2.artTok) ∧
    (∀ pre s c mid s' c' post,
        inputs = pre ++ (s, c) :: mid ++ (s', c') :: post →
        bumpB (runAfter tok₀ pre).1 (runAfter tok₀ pre).2 s = true →
        bumpB (runAfter tok₀ (pre ++ (s, c) :: mid)).1
          (runAfter tok₀ (pre ++ (s, c) :: mid)).2 s' = true →
        (runAfter tok₀ (pre ++ [(s, c)])).2.artTok <
          (runAfter tok₀ ((pre ++ (s, c) :: mid) ++ [(s', c')])).2.artTok) := by
  have bump_step : ∀ pre s c post, inputs = pre ++ (s, c) :: post →
      bumpB (runAfter tok₀ pre).1 (runAfter tok₀ pre).2 s = true →
      (runAfter tok₀ (pre ++ [(s, c)])).2.artTok = c ∧
      (runAfter tok₀ pre).2.artTok <
        (runAfter tok₀ (pre ++ [(s, c)])).2.artTok := by
    intro pre s c post heq hb
    obtain ⟨hinv, hck'⟩ := runAfter_inv tok₀ pre ((s, c) :: post) (heq ▸ hck)
    have htc : (runAfter tok₀ pre).2.artTok < c :=
      hck'.1 (s, c) (List.mem_cons_self _ _)
    have hstep := bump_tok (runAfter tok₀ pre).1 (runAfter tok₀ pre).2 s c hinv hb
    rw [runAfter_snoc]
    exact ⟨hstep.1, by rw [hstep.1]; exact htc⟩
  refine ⟨bump_step, ?_, ?_⟩
  · intro pre rest heq
    obtain ⟨hinv, hck'⟩ := runAfter_inv tok₀ pre rest (heq ▸ hck)
    have hmono := (nowRun_inv_clock rest (runAfter tok₀ pre).1
      (runAfter tok₀ pre).2 hinv hck').2.1
    have : runAfter tok₀ inputs =
        nowRun (runAfter tok₀ pre).1 (runAfter tok₀ pre).2 rest := by
      rw [heq]; unfold runAfter; rw [nowRun_append]
    rw [this]
    exact hmono
  · intro pre s c mid s' c' post heq hb hb'
    -- token after the first change tick
    have h1 := bump_step pre s c (mid ++ (s', c') :: post) (by simpa using heq)
      hb
    -- the run up to just before the second change tick is monotone
    have hassoc : pre ++ (s, c) :: mid ++ (s', c') :: post =
        (pre ++ [(s, c)]) ++ (mid ++ (s', c') :: post) := by
      simp
    obtain ⟨hinvA, hckA⟩ := runAfter_inv tok₀ (pre ++ [(s, c)])
      (mid ++ (s', c') :: post) (by rw [← hassoc, ← heq]; exact hck)
    have hckmid : ClockOK (runAfter tok₀ (pre ++ [(s, c)])).2.artTok mid :=
      clockOK_restrict _ mid ((s', c') :: post) hckA
    have hmono := (nowRun_inv_clock mid (runAfter tok₀ (pre ++ [(s, c)])).1
      (runAfter tok₀ (pre ++ [(s, c)])).2 hinvA hckmid).2.1
    have hB : runAfter tok₀ (pre ++ (s, c) :: mid) =
        nowRun (runAfter tok₀ (pre ++ [(s, c)])).1
          (runAfter tok₀ (pre ++ [(s, c)])).2 mid := by
      unfold runAfter
      rw [show pre ++ (s, c) :: mid = (pre ++ [(s, c)]) ++ mid by simp,
        nowRun_append]
    -- the second change tick strictly bumps past that point
    have h2 := bump_step (pre ++ (s, c) :: mid) s' c' post (by simpa using heq)
      hb'
    calc (runAfter tok₀ (pre ++ [(s, c)])).2.artTok
        ≤ (runAfter tok₀ (pre ++ (s, c) :: mid)).2.artTok := by
          rw [hB]; exact hmono
      _ < (runAfter tok₀ ((pre ++ (s, c) :: mid) ++ [(s', c')])).2.artTok :=
          h2.2

/-- Witness for `c1_artwork_token`: a concrete one-tick run with
well-ordered clocks, to which the monotonicity part applies. -/
theorem c1_artwork_token_witness :
    ClockOK 0 [(c1sA, 5)] ∧
      (runAfter 0 []).2.artTok ≤ (runAfter 0 [(c1sA, 5)]).2.artTok :=
  ⟨by decide,
    (c1_artwork_token 0 [(c1sA, 5)] (by decide)).2.1 [] [(c1sA, 5)] rfl⟩

/-- Sample used by the C2 witness and the C3 counterexample: a track at
position 2 s. -/
def c2s : NowSample :=
  { pid := "", st := "playing", title := "t", artist := "a", album := "b", pos := 2 }

/-- C2: a position regression of more than 1.5 s at the same identity
(identifier and metadata key equal to the loop's last-seen values) bumps
the artwork token to the tick's clock — strictly increasing it when the
clock exceeds the stored token — while the identifier bookkeeping
(`last_pid` and `last_meta_key`) is left unchanged. -/
theorem c2_restart_bumps_token (ls : NowLoopSt) (snap : NowSnap) (s : NowSample)
    (c : Nat) (lp : ℚ)
    (hpid : ls.lastPid = some s.pid)
    (hkey : ls.lastMetaKey = some (nowKey s))
    (hlp : ls.lastPos = some lp)
    (hreg : s.pos + 3 / 2 < lp)
    (hc : snap.artTok < c) :
    (nowTick ls snap s c).snap.artTok = c ∧
      snap.artTok < (nowTick ls snap s c).snap.artTok ∧
      (nowTick ls snap s c).ls.lastPid = ls.lastPid ∧
      (nowTick ls snap s c).ls.lastMetaKey = ls.lastMetaKey := by
  have hrest : restartedB ls s = true := (restartedB_iff ls s).mpr ⟨lp, hlp, hreg⟩
  have hf : firesB ls s = true := by simp [firesB, hrest]
  have hb : bumpB ls snap s = true := by simp [bumpB, hrest]
  refine ⟨?_, ?_, ?_, ?_⟩ <;> simp [nowTick, hf, hb, hpid, hkey, hc]

/-- Witness for `c2_restart_bumps_token`: a concrete regression from
position 10 to position 2 with clock 7 and stored token 0. -/
theorem c2_restart_bumps_token_witness :
    (c2s.pos + 3 / 2 < 10 ∧ (0 : Nat) < 7) ∧
      (nowTick ⟨some "", some "playing", some (nowKey c2s), some 10⟩
        ⟨none, 0⟩ c2s 7).snap.artTok = 7 :=
  ⟨⟨by norm_num [c2s], by decide⟩,
    (c2_restart_bumps_token ⟨some "", some "playing", some (nowKey c2s), some 10⟩
      ⟨none, 0⟩ c2s 7 10 rfl rfl rfl (by norm_num [c2s]) (by decide)).1⟩

/-- The same track as `c2s` at position 10 s. -/
def c3a : NowSample :=
  { pid := "", st := "playing", title := "t", artist := "a", album := "b", pos := 10 }

/-- C3 is false as stated: a sequence with constant identifier and
unchanged metadata tuple can still publish `now` events and move the
artwork token — the loop's first observation always fires, and a
position regression of more than 1.5 s (a detected restart) fires and
bumps the token.  Concretely, the two-sample run `c3a, c2s` (identical
identifier and tuple, positions 10 then 2) publishes two `now` events
and ends with artwork token 6 ≠ 0. -/
theorem c3_counterexample :
    c3a.pid = c2s.pid ∧ metaTuple c3a = metaTuple c2s ∧
      nowRunEvents initNowLoop ⟨none, 0⟩ [(c3a, 5), (c2s, 6)] = [5, 6] ∧
      (runAfter 0 [(c3a, 5), (c2s, 6)]).2.artTok ≠ 0 := by
  decide

/-- C3 (amended): from a loop state whose bookkeeping already matches the
samples' constant identity — same identifier, same player state, same
metadata key — and along which no position regresses by more than 1.5 s
from the previously observed position, the loop publishes no `now` event
and leaves the snapshot (including the artwork token) unchanged. -/
theorem c3_no_change_no_event (inputs : List (NowSample × Nat)) :
    ∀ (ls : NowLoopSt) (snap : NowSnap) (p st0 k : String) (lp : ℚ),
      ls.lastPid = some p → ls.lastState = some st0 →
      ls.lastMetaKey = some k → ls.lastPos = some lp →
      (∀ x ∈ inputs, x.1.pid = p ∧ x.1.st = st0 ∧ nowKey x.1 = k) →
      List.Chain' (fun a b => ¬(b + 3 / 2 < a))
        (lp :: inputs.map (fun x => x.1.pos)) →
      nowRunEvents ls snap inputs = [] ∧ (nowRun ls snap inputs).2 = snap := by
  induction inputs with
  | nil => intro ls snap p st0 k lp _ _ _ _ _ _; exact ⟨rfl, rfl⟩
  | cons x rest ih =>
    intro ls snap p st0 k lp h1 h2 h3 h4 hs hpos
    obtain ⟨s, c⟩ := x
    obtain ⟨hsp, hss, hsk⟩ := hs (s, c) (List.mem_cons_self _ _)
    rw [List.map_cons, List.chain'_cons] at hpos
    have hnr : restartedB ls s = false := by
      rw [← Bool.not_eq_true, restartedB_iff]
      rintro ⟨lp', hlp', hreg⟩
      rw [h4] at hlp'
      injection hlp' with h'
      rw [← h'] at hreg
      exact hpos.1 hreg
    have hsp' : s.pid = p := hsp
    have hss' : s.st = st0 := hss
    have hsk' : nowKey s = k := hsk
    have hf : firesB ls s = false := by
      simp [firesB, h1, h2, h3, hnr, hsp', hss', hsk']
    have ht : nowTick ls snap s c =
        { ls := { ls with lastPos := some s.pos }, snap := snap, ev := none } := by
      simp [nowTick, hf]
    have ihr := ih { ls with lastPos := some s.pos } snap p st0 k s.pos
      (by simp [h1]) (by simp [h2]) (by simp [h3]) rfl
      (fun y hy => hs y (List.mem_cons_of_mem _ hy)) hpos.2
    constructor
    · show (nowTick ls snap s c).ev.toList ++ _ = []
      rw [ht]
      simpa using ihr.1
    · show (nowRun (nowTick ls snap s c).ls (nowTick ls snap s c).snap rest).2 = snap
      rw [ht]
      exact ihr.2

/-- Witness for `c3_no_change_no_event`: one steady-state tick at
constant identity publishes nothing. -/
theorem c3_no_change_no_event_witness :
    nowRunEvents ⟨some "", some "playing", some (nowKey c3a), some 10⟩
        ⟨some c3a, 5⟩ [(c3a, 9)] = [] :=
  (c3_no_change_no_event [(c3a, 9)]
    ⟨some "", some "playing", some (nowKey c3a), some 10⟩ ⟨some c3a, 5⟩
    "" "playing" (nowKey c3a) 10 rfl rfl rfl rfl
    (by intro x hx; rw [List.mem_singleton] at hx; subst hx
        exact ⟨rfl, rfl, rfl⟩)
    (by constructor
        · norm_num [c3a]
        · simp)).1

/-- Sample observed while a track plays, before a probe failure. -/
def c5s : NowSample :=
  { pid := "", st := "playing", title := "A", artist := "B", album := "C", pos := 3 }

/-- C5 is false as stated: `_get_now_playing_dict` maps a probe failure
to the ordinary sample `{"state": "unknown"}` (empty metadata, position
0), and `_watch_now_loop` processes it like any sample.  After a playing
track, the failing tick is detected as a state/metadata change: a `now`
event is published, the artwork token is bumped, and the stored snapshot
sample is replaced by the unknown sample — not "no change, no event". -/
theorem c5_counterexample :
    nowRunEvents initNowLoop ⟨none, 0⟩ [(c5s, 5), (unknownNow, 6)] = [5, 6] ∧
      (runAfter 0 [(c5s, 5), (unknownNow, 6)]).2.now = some unknownNow ∧
      (runAfter 0 [(c5s, 5), (unknownNow, 6)]).2.artTok = 6 ∧
      (runAfter 0 [(c5s, 5)]).2.artTok = 5 := by
  decide

/-- C5 (amended): a probe failure yields the distinguished sample
`{"state": "unknown"}` rather than an exception, and the loop treats a
failing tick as "no change, retry next tick" only once its bookkeeping
already matches the failure sample: from the second consecutive failing
tick on, no event is published and the loop state and snapshot are left
exactly as they were. -/
theorem nowKey_unknown : nowKey unknownNow = "||" := by decide

/-- Bookkeeping that already matches the failure sample never fires on
another failure sample. -/
theorem fires_unknown_synced (L : NowLoopSt)
    (hp : L.lastPid = some "") (hst : L.lastState = some "unknown")
    (hmk : L.lastMetaKey = some "||") (hlp : L.lastPos = some 0) :
    firesB L unknownNow = false := by
  have hnr : restartedB L unknownNow = false := by
    rw [← Bool.not_eq_true, restartedB_iff]
    rintro ⟨lp', hlp', hreg⟩
    rw [hlp] at hlp'
    injection hlp' with h'
    rw [← h'] at hreg
    norm_num [unknownNow] at hreg
  have e1 : unknownNow.pid = "" := rfl
  have e2 : unknownNow.st = "unknown" := rfl
  simp [firesB, hp, hst, hmk, hnr, nowKey_unknown, e1, e2]

theorem c5_failure_retry (ls : NowLoopSt) (snap : NowSnap) (c1 c2 : Nat) :
    (nowTick (nowTick ls snap unknownNow c1).ls
        (nowTick ls snap unknownNow c1).snap unknownNow c2).ev = none ∧
      (nowTick (nowTick ls snap unknownNow c1).ls
        (nowTick ls snap unknownNow c1).snap unknownNow c2).snap =
        (nowTick ls snap unknownNow c1).snap ∧
      (nowTick (nowTick ls snap unknownNow c1).ls
        (nowTick ls snap unknownNow c1).snap unknownNow c2).ls =
        (nowTick ls snap unknownNow c1).ls := by
  have hsync : (nowTick ls snap unknownNow c1).ls.lastPid = some "" ∧
      (nowTick ls snap unknownNow c1).ls.lastState = some "unknown" ∧
      (nowTick ls snap unknownNow c1).ls.lastMetaKey = some "||" ∧
      (nowTick ls snap unknownNow c1).ls.lastPos = some 0 := by
    by_cases hf : firesB ls unknownNow
    · have e1 : unknownNow.pid = "" := rfl
      have e2 : unknownNow.st = "unknown" := rfl
      have e4 : unknownNow.pos = (0 : ℚ) := rfl
      refine ⟨?_, ?_, ?_, ?_⟩ <;> simp [nowTick, hf, nowKey_unknown, e1, e2, e4]
    · have h := hf
      simp only [firesB, Bool.or_eq_true, Bool.and_eq_true, bne_iff_ne, ne_eq,
        not_or, Bool.not_eq_true] at h
      push_neg at h
      obtain ⟨⟨⟨hp, hst⟩, hmk⟩, _⟩ := h
      have hmk' : ls.lastMetaKey = some "||" := by
        by_contra hcon
        have h0 := hmk (fun he => hcon (by rw [← he, nowKey_unknown]))
        rw [nowKey_unknown] at h0
        exact absurd h0 (by decide)
      have e1 : unknownNow.pid = "" := rfl
      have e2 : unknownNow.st = "unknown" := rfl
      have e4 : unknownNow.pos = (0 : ℚ) := rfl
      refine ⟨?_, ?_, ?_, ?_⟩ <;>
        simp [nowTick, hf, hp, hst, hmk', nowKey_unknown, e1, e2, e4]
  obtain ⟨hp, hst, hmk, hlp⟩ := hsync
  set L := (nowTick ls snap unknownNow c1).ls with hL
  set S := (nowTick ls snap unknownNow c1).snap with hS
  have hf2 : firesB L unknownNow = false :=
    fires_unknown_synced _ hp hst hmk hlp
  refine ⟨by simp [nowTick, hf2], by simp [nowTick, hf2], ?_⟩
  have hpos0 : (unknownNow.pos : ℚ) = 0 := rfl
  simp only [nowTick, hf2, Bool.false_eq_true, if_false, hpos0]
  rw [← hlp]

/-- Capacity of a subscriber queue: `_sse_subscribe` registers
`Queue(maxsize=100)`. -/
def queueCap : Nat := 100

/-- The delivery loop of `_sse_publish` over the registered subscriber
queues (the subscriber set in iteration order, each queue modelled by its
buffered messages in FIFO order): `q.put_nowait(msg)` is attempted on
every queue; `put_nowait` on a `Queue(maxsize=100)` raises exactly when
the queue holds 100 items, the raising queues are collected in `dead`,
and after the loop every dead queue is discarded from the subscriber
set.  Queues with room get the message appended and stay registered. -/
def ssePublishQueues (msg : String) : List (List String) → List (List String)
  | [] => []
  | q :: rest =>
    if q.length < queueCap then (q ++ [msg]) :: ssePublishQueues msg rest
    else ssePublishQueues msg rest

/-- C4 is false as stated: a subscriber whose queue is full does not stay
registered.  `put_nowait` on a full queue raises `queue.Full`, which the
bare `except` in `_sse_publish` catches like any enqueue error, so the
full queue lands in `dead` and is discarded from the subscriber set.
Concretely, publishing to a registry holding one full queue and one
empty queue leaves only the (updated) empty queue registered. -/
theorem c4_counterexample :
    ssePublishQueues "m" [List.replicate 100 "x", []] = [["m"]] ∧
      (ssePublishQueues "m" [List.replicate 100 "x", []]).length = 1 := by
  decide

/-- C4 (amended): publishing performs a non-blocking offer to every
registered queue independently: every queue with spare capacity receives
the message appended and stays registered regardless of the state of any
other queue, while a full queue drops that item and is automatically
unregistered (the `queue.Full` raised by `put_nowait` is treated like a
dead consumer); the publisher never waits on any queue. -/
theorem c4_publish_delivery (msg : String) (reg : List (List String)) :
    ssePublishQueues msg reg =
      (reg.filter (fun q => q.length < queueCap)).map (fun q => q ++ [msg]) ∧
      (∀ q ∈ reg, q.length < queueCap → q ++ [msg] ∈ ssePublishQueues msg reg) ∧
      (ssePublishQueues msg reg).length =
        (reg.filter (fun q => q.length < queueCap)).length := by
  have heq : ∀ l : List (List String), ssePublishQueues msg l =
      (l.filter (fun q => q.length < queueCap)).map (fun q => q ++ [msg]) := by
    intro l
    induction l with
    | nil => rfl
    | cons q rest ih =>
      by_cases h : q.length < queueCap
      · simp [ssePublishQueues, h, ih]
      · simp [ssePublishQueues, h, ih]
  refine ⟨heq reg, ?_, ?_⟩
  · intro q hq hlen
    rw [heq reg]
    exact List.mem_map_of_mem _ (List.mem_filter.mpr ⟨hq, by simpa using hlen⟩)
  · rw [heq reg, List.length_map]

/-- Witness for `c4_publish_delivery`: an empty queue receives the
published message. -/
theorem c4_publish_delivery_witness :
    ([] : List String) ++ ["m"] ∈ ssePublishQueues "m" [[]] :=
  (c4_publish_delivery "m" [[]]).2.1 [] (by decide) (by decide)

/-- An output device as composed by the devices code paths: name, active
flag, and the merged per-device volume (`None` when unknown). -/
structure OutputDevice where
  name : String
  active : Bool
  volume : Option Nat
deriving DecidableEq, Repr

/-- The Snapshot Store `_last_snapshot`: the `now`, `airplay`, `master`,
`shuffle` fields (each `None` until its loop first writes it) and the
artwork token `art_tok`.  (`art_hash` is not needed by the claims.) -/
structure SnapStore where
  now : Option NowSample
  airplay : Option (List OutputDevice)
  master : Option Int
  shuffle : Option Bool
  artTok : Nat
deriving DecidableEq, Repr

/-- Payload of the synthesized `snapshot` envelope. -/
structure SnapshotPayload where
  now : NowSample
  shuffle : Bool
  master : Int
  airplay : List OutputDevice
  artworkToken : Nat
deriving DecidableEq, Repr

/-- `_current_snapshot()`: queries the player live — `_get_now_playing_dict`,
`get_shuffle_enabled`, `_get_master_volume_percent`, `_read_airplay_full`
merged with `_get_airplay_volumes` — and takes only `artwork_token` from
the store (`_last_snapshot.get("art_tok", ...)`, always present).  The
probe results are parameters of the model. -/
def currentSnapshot (probeNow : NowSample) (probeShuffle : Bool)
    (probeMaster : Int) (probeDevices : List (String × Bool))
    (vols : String → Option Nat) (store : SnapStore) : SnapshotPayload :=
  { now := probeNow
    shuffle := probeShuffle
    master := probeMaster
    airplay := probeDevices.map (fun d => ⟨d.1, d.2, vols d.1⟩)
    artworkToken := store.artTok }

/-- Modelled from the spec: a `snapshot` envelope "built from the current
Snapshot Store, reflecting the store's state at join time" — every field
drawn from `_last_snapshot`, with the probe-failure defaults for fields
no loop has written yet.  `currentSnapshot` is compared against this. -/
def snapshotFromStoreSpec (store : SnapStore) : SnapshotPayload :=
  { now := store.now.getD unknownNow
    shuffle := store.shuffle.getD false
    master := store.master.getD (-1)
    airplay := store.airplay.getD []
    artworkToken := store.artTok }

/-- One element of the SSE stream a subscriber receives. -/
inductive StreamItem where
  | snapshotEnv (p : SnapshotPayload)
  | queued (m : String)
deriving DecidableEq, Repr

/-- The `_stream()` generator of `sse_events`: subscribe the queue, yield
one synthesized snapshot envelope built by `_current_snapshot`, then
forward the subscriber queue's messages in FIFO order (`queuedMsgs` is
the sequence `q.get()` hands over during the connection's life). -/
def sseStream (probeNow : NowSample) (probeShuffle : Bool) (probeMaster : Int)
    (probeDevices : List (String × Bool)) (vols : String → Option Nat)
    (store : SnapStore) (queuedMsgs : List String) : List StreamItem :=
  .snapshotEnv (currentSnapshot probeNow probeShuffle probeMaster probeDevices
      vols store) :: queuedMsgs.map .queued

/-- Store contents used by the C6 counterexample: the store knows track
`c5s`, while the live probe at join time reports the unknown sample. -/
def c6store : SnapStore :=
  { now := some c5s, airplay := none, master := none, shuffle := none, artTok := 7 }

/-- C6 is false in its provenance part: the first envelope is indeed a
`snapshot` envelope delivered before any queued event, but
`_current_snapshot` re-probes the player for `now`, shuffle, master and
devices instead of reading the Snapshot Store — only the artwork token
comes from the store.  With the store holding track `c5s` and the probe
returning the unknown sample at join time, the delivered envelope
differs from one built from the store. -/
theorem c6_counterexample :
    (sseStream unknownNow false 50 [] (fun _ => none) c6store ["m"]).head? =
      some (.snapshotEnv (currentSnapshot unknownNow false 50 []
        (fun _ => none) c6store)) ∧
      currentSnapshot unknownNow false 50 [] (fun _ => none) c6store ≠
        snapshotFromStoreSpec c6store := by
  constructor
  · rfl
  · intro h
    have := congrArg SnapshotPayload.now h
    simp [currentSnapshot, snapshotFromStoreSpec, c6store] at this
    exact absurd this (by decide)

/-- C6 (amended): every newly-subscribed consumer receives as its first
stream element a `snapshot` envelope, before any queued incremental
event; the envelope's artwork token is the store's token at join time,
while its `now`/shuffle/master/devices fields come from fresh probe
queries at join time rather than from the Snapshot Store. -/
theorem c6_snapshot_first (probeNow : NowSample) (probeShuffle : Bool)
    (probeMaster : Int) (probeDevices : List (String × Bool))
    (vols : String → Option Nat) (store : SnapStore)
    (queuedMsgs : List String) :
    (sseStream probeNow probeShuffle probeMaster probeDevices vols store
        queuedMsgs).head? = some (.snapshotEnv (currentSnapshot probeNow
        probeShuffle probeMaster probeDevices vols store)) ∧
      (currentSnapshot probeNow probeShuffle probeMaster probeDevices vols
        store).artworkToken = store.artTok ∧
      (currentSnapshot probeNow probeShuffle probeMaster probeDevices vols
        store).now = probeNow ∧
      ∀ i, (sseStream probeNow probeShuffle probeMaster probeDevices vols store
        queuedMsgs).get? (i + 1) = (queuedMsgs.get? i).map .queued := by
  refine ⟨rfl, rfl, rfl, ?_⟩
  intro i
  show (queuedMsgs.map StreamItem.queued).get? i = _
  exact List.get?_map _ _ _

/-- 32-bit truncation, `% 2**32`. -/
def w32 (x : Nat) : Nat := x % 4294967296

/-- Left-rotation of a 32-bit word by `n` bits. -/
def rotl (n x : Nat) : Nat :=
  w32 ((x <<< n) + (x >>> (32 - n)))

/-- Split a byte list into 64-byte chunks; `fuel` bounds the recursion
(any fuel above the chunk count gives the full split). -/
def chunks64 : Nat → List Nat → List (List Nat)
  | 0, _ => []
  | _, [] => []
  | Nat.succ fuel, l => l.take 64 :: chunks64 fuel (l.drop 64)

/-- SHA-1 message schedule: extend 16 words to 80. -/
def sha1Extend (w16 : List Nat) : List Nat :=
  (List.range 64).foldl
    (fun ws _ =>
      let n := ws.length
      ws ++ [rotl 1 ((((ws.getD (n - 3) 0) ^^^ (ws.getD (n - 8) 0)) ^^^
        (ws.getD (n - 14) 0)) ^^^ (ws.getD (n - 16) 0))])
    w16

/-- Big-endian 32-bit words of a 64-byte chunk. -/
def toWords : Nat → List Nat → List Nat
  | 0, _ => []
  | Nat.succ fuel, l =>
    match l with
    | [] => []
    | _ => (((l.getD 0 0) * 16777216 + (l.getD 1 0) * 65536 +
             (l.getD 2 0) * 256 + (l.getD 3 0)) : Nat) :: toWords fuel (l.drop 4)

/-- One SHA-1 round on the five-word state. -/
def sha1Round (w : List Nat) (st : Nat × Nat × Nat × Nat × Nat) (i : Nat) :
    Nat × Nat × Nat × Nat × Nat :=
  let (a, b, c, d, e) := st
  let f :=
    if i < 20 then (b &&& c) ||| ((4294967295 ^^^ b) &&& d)
    else if i < 40 then (b ^^^ c) ^^^ d
    else if i < 60 then ((b &&& c) ||| (b &&& d)) ||| (c &&& d)
    else (b ^^^ c) ^^^ d
  let k :=
    if i < 20 then 1518500249
    else if i < 40 then 1859775393
    else if i < 60 then 2400959708
    else 3395469782
  let temp := w32 (rotl 5 a + f + e + k + w.getD i 0)
  (temp, a, rotl 30 b, c, d)

/-- SHA-1 compression of one 64-byte chunk. -/
def sha1Compress (h : Nat × Nat × Nat × Nat × Nat) (chunk : List Nat) :
    Nat × Nat × Nat × Nat × Nat :=
  let w := sha1Extend (toWords 16 chunk)
  let (h0, h1, h2, h3, h4) := h
  let (a, b, c, d, e) := (List.range 80).foldl (sha1Round w) (h0, h1, h2, h3, h4)
  (w32 (h0 + a), w32 (h1 + b), w32 (h2 + c), w32 (h3 + d), w32 (h4 + e))

/-- SHA-1 padding of a byte string. -/
def sha1Pad (msg : List Nat) : List Nat :=
  let len := msg.length
  let zeros := (119 - len % 64) % 64
  let bitLen := (8 * len) % 18446744073709551616
  msg ++ [128] ++ List.replicate zeros 0 ++
    [bitLen >>> 56 % 256, bitLen >>> 48 % 256, bitLen >>> 40 % 256, bitLen >>> 32 % 256,
     bitLen >>> 24 % 256, bitLen >>> 16 % 256, bitLen >>> 8 % 256, bitLen % 256]

/-- Big-endian bytes of a 32-bit word. -/
def wordBytes (w : Nat) : List Nat :=
  [w >>> 24 % 256, w >>> 16 % 256, w >>> 8 % 256, w % 256]

/-- SHA-1 digest of a byte string, as its 20 bytes (checked against
reference digests, e.g. the empty string hashes to da39a3ee…). -/
def sha1Bytes (msg : List Nat) : List Nat :=
  let padded := sha1Pad msg
  let h := (chunks64 (padded.length + 1) padded).foldl sha1Compress
    (1732584193, 4023233417, 2562383102, 271733878, 3285377520)
  wordBytes h.1 ++ wordBytes h.2.1 ++ wordBytes h.2.2.1 ++
    wordBytes h.2.2.2.1 ++ wordBytes h.2.2.2.2

/-- Lower-case hex digit of a value below 16. -/
def hexDigit (n : Nat) : Char :=
  if n < 10 then Char.ofNat (48 + n) else Char.ofNat (87 + n)

/-- Lower-case hex encoding of a byte list (each byte below 256). -/
def hexOfBytes (bs : List Nat) : List Char :=
  bs.flatMap (fun b => [hexDigit (b / 16), hexDigit (b % 16)])

/-- Byte view of a string for hashing, as in `key.encode("utf-8", "ignore")`
(code points below 128 map to themselves; all keys in the concrete claims
are ASCII). -/
def strBytes (s : String) : List Nat := s.data.map Char.toNat

/-- `hashlib.sha1(key).hexdigest()[:8]`. -/
def sha1Hex8 (s : String) : String :=
  ⟨(hexOfBytes (sha1Bytes (strBytes s))).take 8⟩

/-- Drop characters of `cs` from both ends, Python `str.strip("._")`. -/
def pyStripCharsList (cs : List Char) (l : List Char) : List Char :=
  ((l.dropWhile (· ∈ cs)).reverse.dropWhile (· ∈ cs)).reverse

/-- The per-character step of `_safe_slug`: keep alphanumerics and
`" "`, `"-"`, `"_"`, `"."`; replace everything else by `"_"`.
(Python's `isalnum` is Unicode-aware; `Char.isAlphanum` is its ASCII
restriction, and no claim distinguishes non-ASCII alphanumerics.) -/
def keepOrUnderscore (c : Char) : Char :=
  if c.isAlphanum || c ∈ [' ', '-', '_', '.'] then c else '_'

/-- Python `slug.replace("  ", " ")`: one left-to-right pass replacing
non-overlapping double spaces. -/
def replaceDoubleSpace : List Char → List Char
  | [] => []
  | [c] => [c]
  | c₁ :: c₂ :: rest =>
    if c₁ = ' ' ∧ c₂ = ' ' then ' ' :: replaceDoubleSpace rest
    else c₁ :: replaceDoubleSpace (c₂ :: rest)

/-- Python `"  " in slug`. -/
def hasDoubleSpace : List Char → Bool
  | [] => false
  | [_] => false
  | c₁ :: c₂ :: rest =>
    (decide (c₁ = ' ') && decide (c₂ = ' ')) || hasDoubleSpace (c₂ :: rest)

/-- The `while "  " in slug: slug = slug.replace("  ", " ")` loop of
`_safe_slug`; each pass shortens the list, so `l.length` passes always
reach the fixed point. -/
def collapseSpaces : Nat → List Char → List Char
  | 0, l => l
  | Nat.succ fuel, l =>
    if hasDoubleSpace l then collapseSpaces fuel (replaceDoubleSpace l) else l

/-- Python `str.replace` of one character by another. -/
def replaceChar (a b : Char) (l : List Char) : List Char :=
  l.map (fun c => if c = a then b else c)

/-- `_safe_slug`: strip, map characters through `keepOrUnderscore`, strip
whitespace then `"._"` from the ends, collapse double spaces, turn spaces
into underscores, default to `"unknown"` when empty, truncate to 120
characters.  (The `except` on a non-string argument cannot fire for the
string inputs modelled here.) -/
def safe_slug (s : String) : String :=
  let out := (pyStripList s.data).map keepOrUnderscore
  let slug1 := pyStripCharsList ['.', '_'] (pyStripList out)
  let slug2 := replaceChar ' ' '_' (collapseSpaces slug1.length slug1)
  let slug3 := if slug2 = [] then "unknown".data else slug2
  ⟨slug3.take 120⟩

/-- Python `str.lower()` (ASCII restriction, see `keepOrUnderscore`). -/
def pyLower (s : String) : String := ⟨s.data.map Char.toLower⟩

/-- `_album_cache_path(album, artist, ext)`, giving the file name inside
the constant `ARTWORK_DIR` (the directory join only prefixes the constant
directory and a separator):
slug of `album or "unknown"`, `"__"`, the first 8 hex characters of the
SHA-1 of `f"{artist.lower()}|{album.lower()}"`, a dot and the lowered
extension. -/
def album_cache_path (album artist ext : String) : String :=
  safe_slug (if album = "" then "unknown" else album) ++ "__" ++
    sha1Hex8 (pyLower artist ++ "|" ++ pyLower album) ++ "." ++ pyLower ext

/-- Byte-list prefix test, `bytes.startswith`. -/
def bytesPrefix : List Nat → List Nat → Bool
  | [], _ => true
  | _ :: _, [] => false
  | a :: as, b :: bs => a == b && bytesPrefix as bs

/-- `_guess_image_mime`: magic-number inspection of the first bytes. -/
def guessImageMime (data : List Nat) : String :=
  if data = [] then "application/octet-stream"
  else
    let header := data.take 16
    if bytesPrefix [82, 73, 70, 70] header && decide (12 ≤ data.length) &&
        ((data.drop 8).take 4 == [87, 69, 66, 80]) then "image/webp"
    else if bytesPrefix [255, 216, 255] header then "image/jpeg"
    else if bytesPrefix [137, 80, 78, 71, 13, 10, 26, 10] header then "image/png"
    else if bytesPrefix [71, 73, 70, 56, 55, 97] header ||
        bytesPrefix [71, 73, 70, 56, 57, 97] header then "image/gif"
    else if bytesPrefix [66, 77] header then "image/bmp"
    else if bytesPrefix [73, 73, 42, 0] header ||
        bytesPrefix [77, 77, 0, 42] header then "image/tiff"
    else "image/jpeg"

/-- The artwork cache directory contents: file name to bytes. -/
def FS := String → Option (List Nat)

/-- Empty cache directory. -/
def fsEmpty : FS := fun _ => none

/-- Writing one file (truncating any existing file of that exact name). -/
def fsWrite (fs : FS) (p : String) (d : List Nat) : FS :=
  fun q => if q = p then some d else fs q

/-- The encodings `_try_read_album_cache` probes, in order. -/
def artworkExts : List String := ["webp", "jpg", "png", "jpeg"]

/-- `_try_read_album_cache(album, artist)`: try the exact `(album, artist)`
key first and on miss fall back to `(album, "")`, scanning the supported
encodings in order for each variant; the first readable file is returned
with its sniffed MIME type. -/
def tryReadAlbumCache (fs : FS) (album artist : String) :
    Option (List Nat × String) :=
  let variants := if artist = "" then [artist] else [artist, ""]
  (variants.flatMap (fun who => artworkExts.map
      (fun e => album_cache_path album who e))).findSome?
    (fun p => (fs p).map (fun d => (d, guessImageMime d)))

/-- Character-list prefix test. -/
def charsPrefix : List Char → List Char → Bool
  | [], _ => true
  | _ :: _, [] => false
  | a :: as, b :: bs => a == b && charsPrefix as bs

/-- Python substring test `pat in l`. -/
def listHasSub (pat : List Char) : List Char → Bool
  | [] => charsPrefix pat []
  | c :: rest => charsPrefix pat (c :: rest) || listHasSub pat rest

/-- `_write_album_cache(album, artist, data)`: nothing is written for
empty bytes; otherwise the bytes are re-encoded to WEBP when the
converter is available (`conv` models `_convert_to_webp`, `None` when
Pillow is unavailable or the image cannot be decoded) and stored under
the `webp` name, else the original bytes are stored under `png`/`jpg`
according to the sniffed MIME type. -/
def writeAlbumCache (conv : List Nat → Option (List Nat)) (fs : FS)
    (album artist : String) (data : List Nat) : FS :=
  if data = [] then fs
  else
    match conv data with
    | some out => fsWrite fs (album_cache_path album artist "webp") out
    | none =>
      let mime := guessImageMime data
      let ext := if listHasSub "png".data mime.data then "png" else "jpg"
      fsWrite fs (album_cache_path album artist ext) data

theorem hexOfBytes_len (bs : List Nat) : (hexOfBytes bs).length = 2 * bs.length := by
  induction bs with
  | nil => rfl
  | cons b rest ih =>
    simp only [hexOfBytes, List.flatMap_cons] at ih ⊢
    simp [ih]
    omega

theorem sha1Bytes_len (m : List Nat) : (sha1Bytes m).length = 20 := by
  simp [sha1Bytes, wordBytes]

theorem sha1Hex8_len (s : String) : (sha1Hex8 s).data.length = 8 := by
  show ((hexOfBytes (sha1Bytes (strBytes s))).take 8).length = 8
  rw [List.length_take, hexOfBytes_len, sha1Bytes_len]
  omega

theorem append5_regroup {α : Type} (a b c d e : List α) :
    (((a ++ b) ++ c) ++ d) ++ e = (a ++ b) ++ (c ++ (d ++ e)) := by
  simp [List.append_assoc]

/-- Cache file names for the same `(album, artist)` key differ whenever
the extension part differs. -/
theorem album_cache_path_ext_ne (album artist e₁ e₂ : String)
    (h : pyLower e₁ ≠ pyLower e₂) :
    album_cache_path album artist e₁ ≠ album_cache_path album artist e₂ := by
  unfold album_cache_path
  intro heq
  apply h
  have hd0 := congrArg String.data heq
  rw [String.data_append, String.data_append, String.data_append,
    String.data_append, String.data_append, String.data_append,
    String.data_append, String.data_append] at hd0
  exact String.ext (List.append_cancel_left hd0)

/-- Cache file names with different hash suffixes differ as strings, for
any extensions. -/
theorem album_cache_path_suffix_ne (album a₁ a₂ e₁ e₂ : String)
    (h : sha1Hex8 (pyLower a₁ ++ "|" ++ pyLower album) ≠
      sha1Hex8 (pyLower a₂ ++ "|" ++ pyLower album)) :
    album_cache_path album a₁ e₁ ≠ album_cache_path album a₂ e₂ := by
  unfold album_cache_path
  intro heq
  apply h
  have hd0 := congrArg String.data heq
  rw [String.data_append, String.data_append, String.data_append,
    String.data_append, String.data_append, String.data_append,
    String.data_append, String.data_append, append5_regroup,
    append5_regroup] at hd0
  have h1 := List.append_cancel_left hd0
  have h3 := (List.append_inj h1 (by rw [sha1Hex8_len, sha1Hex8_len])).1
  exact String.ext h3

/-- The per-file probe of `_try_read_album_cache`: read the file's bytes
and pair them with the sniffed MIME type. -/
def readProbe (fs : FS) : String → Option (List Nat × String) :=
  fun p => (fs p).map (fun d => (d, guessImageMime d))

theorem findSome?_cons_some {α β : Type} (f : α → Option β) (a : α)
    (l : List α) (b : β) (h : f a = some b) :
    List.findSome? f (a :: l) = some b := by
  rw [List.findSome?_cons, h]

theorem findSome?_cons_none {α β : Type} (f : α → Option β) (a : α)
    (l : List α) (h : f a = none) :
    List.findSome? f (a :: l) = List.findSome? f l := by
  rw [List.findSome?_cons, h]

/-- The candidate file names a read with a non-empty artist probes, in
order: the four exact-key names, then the four empty-artist names. -/
theorem tryRead_eq_of_ne (fs : FS) (album artist : String)
    (hartist : artist ≠ "") :
    tryReadAlbumCache fs album artist = List.findSome? (readProbe fs)
      [album_cache_path album artist "webp", album_cache_path album artist "jpg",
       album_cache_path album artist "png", album_cache_path album artist "jpeg",
       album_cache_path album "" "webp", album_cache_path album "" "jpg",
       album_cache_path album "" "png", album_cache_path album "" "jpeg"] := by
  unfold tryReadAlbumCache readProbe
  rw [if_neg hartist]
  rfl

/-- The candidate file names a read with an empty artist probes. -/
theorem tryRead_eq_empty (fs : FS) (album : String) :
    tryReadAlbumCache fs album "" = List.findSome? (readProbe fs)
      [album_cache_path album "" "webp", album_cache_path album "" "jpg",
       album_cache_path album "" "png", album_cache_path album "" "jpeg"] := by
  unfold tryReadAlbumCache readProbe
  rw [if_pos rfl]
  rfl

theorem readProbe_write_hit (fs : FS) (p : String) (d : List Nat) :
    readProbe (fsWrite fs p d) p = some (d, guessImageMime d) := by
  unfold readProbe fsWrite
  rw [if_pos rfl]
  rfl

theorem readProbe_write_skip (fs : FS) (p q : String) (d : List Nat)
    (hne : q ≠ p) (hq : fs q = none) :
    readProbe (fsWrite fs p d) q = none := by
  unfold readProbe fsWrite
  rw [if_neg hne, hq]
  rfl

/-- C7 (amended): writing bytes `X` under `(album, artist)` and reading
the same key back returns exactly the stored bytes — the preferred WEBP
re-encode of `X` when the converter is available (unconditionally, since
`webp` is the first encoding probed), or `X` itself when it is not,
provided no entry of another encoding is already cached for that key
(a stale entry of an earlier-probed encoding shadows the new write);
and re-reading an unchanged cache twice returns identical bytes.
Equality of the returned bytes gives equality of their content hashes. -/
theorem c7_write_read (conv : List Nat → Option (List Nat)) (fs : FS)
    (album artist : String) (data : List Nat) (hdata : data ≠ []) :
    (∀ out, conv data = some out →
        (tryReadAlbumCache (writeAlbumCache conv fs album artist data) album
          artist).map Prod.fst = some out) ∧
      (conv data = none →
        (∀ e ∈ artworkExts, fs (album_cache_path album artist e) = none) →
        (tryReadAlbumCache (writeAlbumCache conv fs album artist data) album
          artist).map Prod.fst = some data) ∧
      ∀ a b : String, tryReadAlbumCache fs a b = tryReadAlbumCache fs a b := by
  refine ⟨?_, ?_, fun a b => rfl⟩
  · intro out hconv
    have hw : writeAlbumCache conv fs album artist data =
        fsWrite fs (album_cache_path album artist "webp") out := by
      rw [writeAlbumCache, if_neg hdata, hconv]
    rw [hw]
    have hhit := readProbe_write_hit fs (album_cache_path album artist "webp") out
    by_cases hart : artist = ""
    · subst hart
      rw [tryRead_eq_empty]
      rw [findSome?_cons_some
        (readProbe (fsWrite fs (album_cache_path album "" "webp") out))
        (album_cache_path album "" "webp") _ _ hhit]
      rfl
    · rw [tryRead_eq_of_ne _ _ _ hart]
      rw [findSome?_cons_some
        (readProbe (fsWrite fs (album_cache_path album artist "webp") out))
        (album_cache_path album artist "webp") _ _ hhit]
      rfl
  · intro hconv hmiss
    have hw : writeAlbumCache conv fs album artist data =
        fsWrite fs (album_cache_path album artist
          (if listHasSub "png".data (guessImageMime data).data then "png"
            else "jpg")) data := by
      rw [writeAlbumCache, if_neg hdata, hconv]
    rw [hw]
    have hm1 : fs (album_cache_path album artist "webp") = none :=
      hmiss _ (by decide)
    have hm2 : fs (album_cache_path album artist "jpg") = none :=
      hmiss _ (by decide)
    have hwp : album_cache_path album artist "webp" ≠
        album_cache_path album artist "png" :=
      album_cache_path_ext_ne album artist _ _ (by decide)
    have hjp : album_cache_path album artist "jpg" ≠
        album_cache_path album artist "png" :=
      album_cache_path_ext_ne album artist _ _ (by decide)
    have hwj : album_cache_path album artist "webp" ≠
        album_cache_path album artist "jpg" :=
      album_cache_path_ext_ne album artist _ _ (by decide)
    by_cases hpng : listHasSub "png".data (guessImageMime data).data
    · rw [if_pos hpng]
      have hs1 := readProbe_write_skip fs
        (album_cache_path album artist "png")
        (album_cache_path album artist "webp") data hwp hm1
      have hs2 := readProbe_write_skip fs
        (album_cache_path album artist "png")
        (album_cache_path album artist "jpg") data hjp hm2
      have hhit := readProbe_write_hit fs
        (album_cache_path album artist "png") data
      by_cases hart : artist = ""
      · subst hart
        rw [tryRead_eq_empty]
        rw [findSome?_cons_none
          (readProbe (fsWrite fs (album_cache_path album "" "png") data))
          (album_cache_path album "" "webp") _ hs1]
        rw [findSome?_cons_none
          (readProbe (fsWrite fs (album_cache_path album "" "png") data))
          (album_cache_path album "" "jpg") _ hs2]
        rw [findSome?_cons_some
          (readProbe (fsWrite fs (album_cache_path album "" "png") data))
          (album_cache_path album "" "png") _ _ hhit]
        rfl
      · rw [tryRead_eq_of_ne _ _ _ hart]
        rw [findSome?_cons_none
          (readProbe (fsWrite fs (album_cache_path album artist "png") data))
          (album_cache_path album artist "webp") _ hs1]
        rw [findSome?_cons_none
          (readProbe (fsWrite fs (album_cache_path album artist "png") data))
          (album_cache_path album artist "jpg") _ hs2]
        rw [findSome?_cons_some
          (readProbe (fsWrite fs (album_cache_path album artist "png") data))
          (album_cache_path album artist "png") _ _ hhit]
        rfl
    · rw [if_neg hpng]
      have hs1 := readProbe_write_skip fs
        (album_cache_path album artist "jpg")
        (album_cache_path album artist "webp") data hwj hm1
      have hhit := readProbe_write_hit fs
        (album_cache_path album artist "jpg") data
      by_cases hart : artist = ""
      · subst hart
        rw [tryRead_eq_empty]
        rw [findSome?_cons_none
          (readProbe (fsWrite fs (album_cache_path album "" "jpg") data))
          (album_cache_path album "" "webp") _ hs1]
        rw [findSome?_cons_some
          (readProbe (fsWrite fs (album_cache_path album "" "jpg") data))
          (album_cache_path album "" "jpg") _ _ hhit]
        rfl
      · rw [tryRead_eq_of_ne _ _ _ hart]
        rw [findSome?_cons_none
          (readProbe (fsWrite fs (album_cache_path album artist "jpg") data))
          (album_cache_path album artist "webp") _ hs1]
        rw [findSome?_cons_some
          (readProbe (fsWrite fs (album_cache_path album artist "jpg") data))
          (album_cache_path album artist "jpg") _ _ hhit]
        rfl

/-- Witness for `c7_write_read`: with a converter available, a one-byte
image written under ("a", "b") reads back as its re-encode. -/
theorem c7_write_read_witness :
    ([1] : List Nat) ≠ [] ∧
      (tryReadAlbumCache (writeAlbumCache (fun _ => some [9, 9]) fsEmpty
        "a" "b" [1]) "a" "b").map Prod.fst = some [9, 9] :=
  ⟨by decide,
    (c7_write_read (fun _ => some [9, 9]) fsEmpty "a" "b" [1] (by decide)).1
      [9, 9] rfl⟩

/-- The PNG signature. -/
def pngSig : List Nat := [137, 80, 78, 71, 13, 10, 26, 10]

/-- C7 is false as stated: with re-encoding unavailable, writing PNG
bytes stores them under the `png` name, but a stale entry under the same
key's `jpg` name — probed earlier — shadows it, so the immediate
read-back returns the stale bytes, not (a re-encode of) `X`. -/
theorem c7_counterexample :
    (tryReadAlbumCache
        (writeAlbumCache (fun _ => none)
          (fsWrite fsEmpty (album_cache_path "a" "b" "jpg") [1, 2, 3])
          "a" "b" pngSig) "a" "b").map Prod.fst = some [1, 2, 3] ∧
      ([1, 2, 3] : List Nat) ≠ pngSig ∧
      (fun _ => none : List Nat → Option (List Nat)) pngSig = none := by
  have hwp : album_cache_path "a" "b" "webp" ≠ album_cache_path "a" "b" "png" :=
    album_cache_path_ext_ne "a" "b" _ _ (by decide)
  have hwj : album_cache_path "a" "b" "webp" ≠ album_cache_path "a" "b" "jpg" :=
    album_cache_path_ext_ne "a" "b" _ _ (by decide)
  have hjp : album_cache_path "a" "b" "jpg" ≠ album_cache_path "a" "b" "png" :=
    album_cache_path_ext_ne "a" "b" _ _ (by decide)
  have hwrite : writeAlbumCache (fun _ => none)
      (fsWrite fsEmpty (album_cache_path "a" "b" "jpg") [1, 2, 3]) "a" "b"
      pngSig = fsWrite (fsWrite fsEmpty (album_cache_path "a" "b" "jpg")
      [1, 2, 3]) (album_cache_path "a" "b" "png") pngSig := rfl
  refine ⟨?_, by decide, rfl⟩
  rw [hwrite]
  rw [tryRead_eq_of_ne _ _ _ (by decide : ("b" : String) ≠ "")]
  have hs1 : readProbe (fsWrite (fsWrite fsEmpty
      (album_cache_path "a" "b" "jpg") [1, 2, 3])
      (album_cache_path "a" "b" "png") pngSig)
      (album_cache_path "a" "b" "webp") = none := by
    unfold readProbe fsWrite
    rw [if_neg hwp, if_neg hwj]
    rfl
  have hs2 : readProbe (fsWrite (fsWrite fsEmpty
      (album_cache_path "a" "b" "jpg") [1, 2, 3])
      (album_cache_path "a" "b" "png") pngSig)
      (album_cache_path "a" "b" "jpg") =
      some ([1, 2, 3], guessImageMime [1, 2, 3]) := by
    unfold readProbe fsWrite
    rw [if_neg hjp, if_pos rfl]
    rfl
  rw [findSome?_cons_none (readProbe (fsWrite (fsWrite fsEmpty
      (album_cache_path "a" "b" "jpg") [1, 2, 3])
      (album_cache_path "a" "b" "png") pngSig))
    (album_cache_path "a" "b" "webp") _ hs1]
  rw [findSome?_cons_some (readProbe (fsWrite (fsWrite fsEmpty
      (album_cache_path "a" "b" "jpg") [1, 2, 3])
      (album_cache_path "a" "b" "png") pngSig))
    (album_cache_path "a" "b" "jpg") _ _ hs2]
  rfl

/-- C8 (amended): a cache read with a non-empty artist tries the exact
`(album, artist)` key first — a `webp` hit under the exact key is
returned directly — and only on a complete exact-key miss falls back to
the `(album, "")` key, returning exactly what a read with an empty
artist returns; the fallback runs from the non-empty-artist side only. -/
theorem c8_read_fallback (fs : FS) (album artist : String)
    (hartist : artist ≠ "") :
    ((∀ e ∈ artworkExts, fs (album_cache_path album artist e) = none) →
        tryReadAlbumCache fs album artist = tryReadAlbumCache fs album "") ∧
      ∀ d, fs (album_cache_path album artist "webp") = some d →
        tryReadAlbumCache fs album artist = some (d, guessImageMime d) := by
  constructor
  · intro hmiss
    rw [tryRead_eq_of_ne _ _ _ hartist, tryRead_eq_empty]
    have hskip : ∀ e : String, e ∈ artworkExts →
        readProbe fs (album_cache_path album artist e) = none := by
      intro e he
      unfold readProbe
      rw [hmiss e he]
      rfl
    rw [findSome?_cons_none (readProbe fs) (album_cache_path album artist "webp")
      _ (hskip "webp" (by decide))]
    rw [findSome?_cons_none (readProbe fs) (album_cache_path album artist "jpg")
      _ (hskip "jpg" (by decide))]
    rw [findSome?_cons_none (readProbe fs) (album_cache_path album artist "png")
      _ (hskip "png" (by decide))]
    rw [findSome?_cons_none (readProbe fs) (album_cache_path album artist "jpeg")
      _ (hskip "jpeg" (by decide))]
  · intro d hd
    rw [tryRead_eq_of_ne _ _ _ hartist]
    rw [findSome?_cons_some (readProbe fs) (album_cache_path album artist "webp")
      _ (d, guessImageMime d) (by unfold readProbe; rw [hd]; rfl)]

/-- Witness for `c8_read_fallback`: an exact-key `webp` entry is served
for a non-empty artist. -/
theorem c8_read_fallback_witness :
    ("x" : String) ≠ "" ∧
      tryReadAlbumCache (fsWrite fsEmpty (album_cache_path "a" "x" "webp") [7])
        "a" "x" = some ([7], guessImageMime [7]) :=
  ⟨by decide,
    (c8_read_fallback (fsWrite fsEmpty (album_cache_path "a" "x" "webp") [7])
      "a" "x" (by decide)).2 [7] (by
        show (if album_cache_path "a" "x" "webp" =
          album_cache_path "a" "x" "webp" then some [7] else none) = some [7]
        rw [if_pos rfl])⟩

/-- C8 is false as stated: the fallback goes from non-empty artist to
empty artist only.  After writing JPEG bytes under ("a", "x") — artist
non-empty — a read of ("a", "") probes only the empty-artist names,
whose 8-hex hash suffix (SHA-1 of "|a") differs from that of "x|a", and
misses; the exact read of ("a", "x") succeeds. -/
theorem c8_counterexample :
    tryReadAlbumCache
        (writeAlbumCache (fun _ => none) fsEmpty "a" "x" [255, 216, 255])
        "a" "" = none ∧
      (tryReadAlbumCache
        (writeAlbumCache (fun _ => none) fsEmpty "a" "x" [255, 216, 255])
        "a" "x").map Prod.fst = some [255, 216, 255] := by
  have hsuf : sha1Hex8 (pyLower "" ++ "|" ++ pyLower "a") ≠
      sha1Hex8 (pyLower "x" ++ "|" ++ pyLower "a") := by decide
  have hne : ∀ e : String, album_cache_path "a" "" e ≠
      album_cache_path "a" "x" "jpg" :=
    fun e => album_cache_path_suffix_ne "a" "" "x" e "jpg" hsuf
  have hwj : album_cache_path "a" "x" "webp" ≠ album_cache_path "a" "x" "jpg" :=
    album_cache_path_ext_ne "a" "x" _ _ (by decide)
  have hwrite : writeAlbumCache (fun _ => none) fsEmpty "a" "x"
      [255, 216, 255] = fsWrite fsEmpty (album_cache_path "a" "x" "jpg")
      [255, 216, 255] := rfl
  rw [hwrite]
  constructor
  · rw [tryRead_eq_empty]
    rw [List.findSome?_eq_none_iff]
    intro p hp
    have hp' : p ∈ ["webp", "jpg", "png", "jpeg"].map
        (fun e => album_cache_path "a" "" e) := hp
    rw [List.mem_map] at hp'
    obtain ⟨e, _, rfl⟩ := hp'
    exact readProbe_write_skip fsEmpty _ _ _ (hne e) rfl
  · rw [tryRead_eq_of_ne _ _ _ (by decide : ("x" : String) ≠ "")]
    rw [findSome?_cons_none (readProbe (fsWrite fsEmpty
        (album_cache_path "a" "x" "jpg") [255, 216, 255]))
      (album_cache_path "a" "x" "webp") _
      (readProbe_write_skip fsEmpty _ _ _ hwj rfl)]
    rw [findSome?_cons_some (readProbe (fsWrite fsEmpty
        (album_cache_path "a" "x" "jpg") [255, 216, 255]))
      (album_cache_path "a" "x" "jpg") _
      ([255, 216, 255], guessImageMime [255, 216, 255])
      (readProbe_write_hit fsEmpty _ _)]
    rfl

/-- The character class of the claims for slug content: alphanumeric or
one of `-`, `_`, `.`. -/
def allowedSlugChar (c : Char) : Prop :=
  c.isAlphanum = true ∨ c = '-' ∨ c = '_' ∨ c = '.'

/-- The character class after the keep-or-underscore pass: `allowedSlugChar`
plus the space (later turned into an underscore). -/
def slugCharOK (c : Char) : Prop :=
  c.isAlphanum = true ∨ c = ' ' ∨ c = '-' ∨ c = '_' ∨ c = '.'

instance : DecidablePred allowedSlugChar := fun c => by
  unfold allowedSlugChar; infer_instance

instance : DecidablePred slugCharOK := fun c => by
  unfold slugCharOK; infer_instance

theorem keepOrUnderscore_ok (c : Char) : slugCharOK (keepOrUnderscore c) := by
  unfold keepOrUnderscore
  by_cases h : (c.isAlphanum || c ∈ [' ', '-', '_', '.']) = true
  · rw [if_pos h]
    rcases Bool.or_eq_true_iff.mp h with h' | h'
    · exact Or.inl h'
    · rcases List.mem_cons.mp (of_decide_eq_true h') with rfl | h''
      · exact Or.inr (Or.inl rfl)
      · rcases List.mem_cons.mp h'' with rfl | h'''
        · exact Or.inr (Or.inr (Or.inl rfl))
        · rcases List.mem_cons.mp h''' with rfl | h4
          · exact Or.inr (Or.inr (Or.inr (Or.inl rfl)))
          · rcases List.mem_singleton.mp h4 with rfl
            exact Or.inr (Or.inr (Or.inr (Or.inr rfl)))
  · rw [if_neg h]
    exact Or.inr (Or.inr (Or.inr (Or.inl rfl)))

theorem mem_pyStripList {c : Char} {l : List Char} (h : c ∈ pyStripList l) :
    c ∈ l := by
  unfold pyStripList at h
  rw [List.mem_reverse] at h
  have h1 := (List.dropWhile_sublist _).subset h
  rw [List.mem_reverse] at h1
  exact (List.dropWhile_sublist _).subset h1

theorem mem_pyStripCharsList {cs : List Char} {c : Char} {l : List Char}
    (h : c ∈ pyStripCharsList cs l) : c ∈ l := by
  unfold pyStripCharsList at h
  rw [List.mem_reverse] at h
  have h1 := (List.dropWhile_sublist _).subset h
  rw [List.mem_reverse] at h1
  exact (List.dropWhile_sublist _).subset h1

theorem mem_replaceDoubleSpace :
    ∀ (l : List Char) (c : Char), c ∈ replaceDoubleSpace l → c ∈ l
  | [], _, h => by simpa [replaceDoubleSpace] using h
  | [a], _, h => by simpa [replaceDoubleSpace] using h
  | c₁ :: c₂ :: rest, c, h => by
    unfold replaceDoubleSpace at h
    by_cases hsp : c₁ = ' ' ∧ c₂ = ' '
    · rw [if_pos hsp] at h
      rcases List.mem_cons.mp h with rfl | h'
      · rw [hsp.1]; exact List.mem_cons_self _ _
      · exact List.mem_cons_of_mem _ (List.mem_cons_of_mem _
          (mem_replaceDoubleSpace rest c h'))
    · rw [if_neg hsp] at h
      rcases List.mem_cons.mp h with rfl | h'
      · exact List.mem_cons_self _ _
      · exact List.mem_cons_of_mem _ (mem_replaceDoubleSpace (c₂ :: rest) c h')

theorem mem_collapseSpaces :
    ∀ (fuel : Nat) (l : List Char) (c : Char), c ∈ collapseSpaces fuel l → c ∈ l
  | 0, _, _, h => h
  | Nat.succ fuel, l, c, h => by
    unfold collapseSpaces at h
    by_cases hd : hasDoubleSpace l = true
    · rw [if_pos hd] at h
      exact mem_replaceDoubleSpace l c (mem_collapseSpaces fuel _ c h)
    · rwa [if_neg hd] at h

theorem mem_replaceChar_space {l : List Char} (hl : ∀ c ∈ l, slugCharOK c) :
    ∀ c ∈ replaceChar ' ' '_' l, allowedSlugChar c := by
  intro c hc
  unfold replaceChar at hc
  rw [List.mem_map] at hc
  obtain ⟨c', hc', rfl⟩ := hc
  by_cases h : c' = ' '
  · rw [if_pos h]
    exact Or.inr (Or.inr (Or.inl rfl))
  · rw [if_neg h]
    rcases hl c' hc' with h1 | h1 | h1 | h1 | h1
    · exact Or.inl h1
    · exact absurd h1 h
    · exact Or.inr (Or.inl h1)
    · exact Or.inr (Or.inr (Or.inl h1))
    · exact Or.inr (Or.inr (Or.inr h1))

theorem safe_slug_chars (s : String) :
    ∀ c ∈ (safe_slug s).data, allowedSlugChar c := by
  intro c hc
  unfold safe_slug at hc
  have hc' := (List.take_sublist _ _).subset hc
  by_cases hemp : replaceChar ' ' '_'
      (collapseSpaces (pyStripCharsList ['.', '_']
        (pyStripList ((pyStripList s.data).map keepOrUnderscore))).length
      (pyStripCharsList ['.', '_']
        (pyStripList ((pyStripList s.data).map keepOrUnderscore)))) = []
  · rw [if_pos hemp] at hc'
    have hu : ∀ d ∈ "unknown".data, allowedSlugChar d := by decide
    exact hu c hc'
  · rw [if_neg hemp] at hc'
    refine mem_replaceChar_space ?_ c hc'
    intro d hd
    have hd1 := mem_collapseSpaces _ _ d hd
    have hd2 := mem_pyStripCharsList hd1
    have hd3 := mem_pyStripList hd2
    rw [List.mem_map] at hd3
    obtain ⟨e, _, rfl⟩ := hd3
    exact keepOrUnderscore_ok e

theorem safe_slug_ne_nil (s : String) : (safe_slug s).data ≠ [] := by
  unfold safe_slug
  intro h
  rw [List.take_eq_nil_iff] at h
  rcases h with h | h
  · omega
  · by_cases hemp : replaceChar ' ' '_'
        (collapseSpaces (pyStripCharsList ['.', '_']
          (pyStripList ((pyStripList s.data).map keepOrUnderscore))).length
        (pyStripCharsList ['.', '_']
          (pyStripList ((pyStripList s.data).map keepOrUnderscore)))) = []
    · rw [if_pos hemp] at h
      exact absurd h (by decide)
    · rw [if_neg hemp] at h
      exact hemp h

theorem safe_slug_len (s : String) : (safe_slug s).data.length ≤ 120 := by
  unfold safe_slug
  rw [List.length_take]
  omega

theorem wordBytes_lt (w : Nat) : ∀ b ∈ wordBytes w, b < 256 := by
  intro b hb
  unfold wordBytes at hb
  rcases List.mem_cons.mp hb with rfl | hb
  · exact Nat.mod_lt _ (by norm_num)
  rcases List.mem_cons.mp hb with rfl | hb
  · exact Nat.mod_lt _ (by norm_num)
  rcases List.mem_cons.mp hb with rfl | hb
  · exact Nat.mod_lt _ (by norm_num)
  rcases List.mem_singleton.mp hb with rfl
  exact Nat.mod_lt _ (by norm_num)

theorem sha1Bytes_lt (m : List Nat) : ∀ b ∈ sha1Bytes m, b < 256 := by
  intro b hb
  unfold sha1Bytes at hb
  rw [List.mem_append] at hb
  rcases hb with hb | hb
  rotate_left
  · exact wordBytes_lt _ b hb
  rw [List.mem_append] at hb
  rcases hb with hb | hb
  rotate_left
  · exact wordBytes_lt _ b hb
  rw [List.mem_append] at hb
  rcases hb with hb | hb
  rotate_left
  · exact wordBytes_lt _ b hb
  rw [List.mem_append] at hb
  rcases hb with hb | hb
  · exact wordBytes_lt _ b hb
  · exact wordBytes_lt _ b hb

theorem hexDigit_mem16 : ∀ n : Fin 16, hexDigit n.val ∈ "0123456789abcdef".data := by
  decide

theorem hexOfBytes_mem (bs : List Nat) (hbs : ∀ b ∈ bs, b < 256) :
    ∀ c ∈ hexOfBytes bs, c ∈ "0123456789abcdef".data := by
  induction bs with
  | nil => intro c hc; simp [hexOfBytes] at hc
  | cons b rest ih =>
    intro c hc
    unfold hexOfBytes at hc
    rw [List.flatMap_cons, List.mem_append] at hc
    rcases hc with hc | hc
    · have hb : b < 256 := hbs b (List.mem_cons_self _ _)
      rcases List.mem_cons.mp hc with rfl | hc
      · exact hexDigit_mem16 ⟨b / 16, by omega⟩
      · rcases List.mem_singleton.mp hc with rfl
        exact hexDigit_mem16 ⟨b % 16, Nat.mod_lt _ (by norm_num)⟩
    · exact ih (fun x hx => hbs x (List.mem_cons_of_mem _ hx)) c hc

theorem sha1Hex8_chars (s : String) :
    ∀ c ∈ (sha1Hex8 s).data, c ∈ "0123456789abcdef".data := by
  intro c hc
  have hc' := (List.take_sublist _ _).subset hc
  exact hexOfBytes_mem _ (sha1Bytes_lt (strBytes s)) c hc'

theorem allowed_ne_slash {c : Char} (h : allowedSlugChar c) : c ≠ '/' := by
  rintro rfl
  rcases h with h | h | h | h
  · exact absurd h (by decide)
  · exact absurd h (by decide)
  · exact absurd h (by decide)
  · exact absurd h (by decide)

theorem hexchar_ne_slash {c : Char} (h : c ∈ "0123456789abcdef".data) :
    c ≠ '/' := by
  have hh : ∀ d ∈ "0123456789abcdef".data, d ≠ '/' := by decide
  exact hh c h

/-- C10: the computed artwork cache file name is a non-empty slug of at
most 120 characters drawn from alphanumerics, `-`, `_`, `.`, followed by
`__`, an 8-hex-character hash suffix, a dot and the fixed extension; the
name contains no path separator and is neither `..` nor `.`, so joining
it to the artwork cache directory stays strictly inside that
directory. -/
theorem c10_cache_filename (album artist ext : String)
    (hext : ext ∈ artworkExts) :
    (safe_slug (if album = "" then "unknown" else album)).data ≠ [] ∧
      (safe_slug (if album = "" then "unknown" else album)).data.length ≤ 120 ∧
      (∀ c ∈ (safe_slug (if album = "" then "unknown" else album)).data,
        allowedSlugChar c) ∧
      (sha1Hex8 (pyLower artist ++ "|" ++ pyLower album)).data.length = 8 ∧
      (∀ c ∈ (sha1Hex8 (pyLower artist ++ "|" ++ pyLower album)).data,
        c ∈ "0123456789abcdef".data) ∧
      (∀ c ∈ (album_cache_path album artist ext).data, c ≠ '/') ∧
      album_cache_path album artist ext ≠ ".." ∧
      album_cache_path album artist ext ≠ "." := by
  have hslug := safe_slug_chars (if album = "" then "unknown" else album)
  have hsuf := sha1Hex8_chars (pyLower artist ++ "|" ++ pyLower album)
  have hdata : (album_cache_path album artist ext).data =
      (((safe_slug (if album = "" then "unknown" else album)).data ++
        "__".data) ++
        (sha1Hex8 (pyLower artist ++ "|" ++ pyLower album)).data ++
        ".".data) ++ (pyLower ext).data := by
    unfold album_cache_path
    rw [String.data_append, String.data_append, String.data_append,
      String.data_append]
  have hext' : ext = "webp" ∨ ext = "jpg" ∨ ext = "png" ∨ ext = "jpeg" := by
    simpa [artworkExts] using hext
  have hextchar : ∀ c ∈ (pyLower ext).data, c ≠ '/' := by
    rcases hext' with rfl | rfl | rfl | rfl <;> decide
  have hextlen : 3 ≤ (pyLower ext).data.length := by
    rcases hext' with rfl | rfl | rfl | rfl <;> decide
  have hnoslash : ∀ c ∈ (album_cache_path album artist ext).data, c ≠ '/' := by
    intro c hc
    rw [hdata] at hc
    rw [List.mem_append] at hc
    rcases hc with hc | hc
    rotate_left
    · exact hextchar c hc
    rw [List.mem_append] at hc
    rcases hc with hc | hc
    rotate_left
    · have hdot : ∀ d ∈ ".".data, d ≠ '/' := by decide
      exact hdot c hc
    rw [List.mem_append] at hc
    rcases hc with hc | hc
    rotate_left
    · exact hexchar_ne_slash (hsuf c hc)
    rw [List.mem_append] at hc
    rcases hc with hc | hc
    · exact allowed_ne_slash (hslug c hc)
    · have hund : ∀ d ∈ "__".data, d ≠ '/' := by decide
      exact hund c hc
  have hlen : 12 ≤ (album_cache_path album artist ext).data.length := by
    rw [hdata]
    simp only [List.length_append]
    have h1 := safe_slug_ne_nil (if album = "" then "unknown" else album)
    have h2 : 1 ≤ (safe_slug (if album = "" then "unknown" else album)).data.length := by
      cases h : (safe_slug (if album = "" then "unknown" else album)).data with
      | nil => exact absurd h h1
      | cons x xs => simp
    have h3 := sha1Hex8_len (pyLower artist ++ "|" ++ pyLower album)
    rw [h3]
    have h4 : ("__".data).length = 2 := by decide
    have h5 : (".".data).length = 1 := by decide
    rw [h4, h5]
    omega
  refine ⟨safe_slug_ne_nil _, safe_slug_len _, hslug, sha1Hex8_len _, hsuf,
    hnoslash, ?_, ?_⟩
  · intro h
    have := congrArg (fun t => t.data.length) h
    simp only at this
    rw [show ("..".data).length = 2 from by decide] at this
    omega
  · intro h
    have := congrArg (fun t => t.data.length) h
    simp only at this
    rw [show (".".data).length = 1 from by decide] at this
    omega

/-- Witness for `c10_cache_filename`: at a concrete key and extension,
the computed file name is not a parent-directory reference. -/
theorem c10_cache_filename_witness :
    ("webp" : String) ∈ artworkExts ∧ album_cache_path "a" "b" "webp" ≠ ".." :=
  ⟨by decide, (c10_cache_filename "a" "b" "webp" (by decide)).2.2.2.2.2.2.1⟩

/-- Outcome of an artwork-extraction AppleScript run: `miss` models an
error reply, an empty reply, or the literal `NOART`; `found` models a
returned temp-file path. -/
inductive ScriptArt where
  | miss
  | found
deriving DecidableEq, Repr

/-- Python truthiness of an optional byte string. -/
def optTruthy : Option (List Nat) → Bool
  | some d => d != []
  | none => false

/-- `_album_art_bytes(album)`: look up the primary artist
(`artistLookup`; an error dict becomes `""`), try the cache under
`(album, artist)` with the empty-artist fallback, else run the
album-scan/artist-scan script (`script2`) and read its temp file
(`tmp2`, `None` when `_read_and_cleanup` fails); non-empty extracted
bytes are written back to the cache.  Returns the bytes (or none) and
the resulting cache state. -/
def albumArtBytes (conv : List Nat → Option (List Nat)) (fs : FS)
    (album : String) (artistLookup : Option String) (script2 : ScriptArt)
    (tmp2 : Option (List Nat)) : Option (List Nat) × FS :=
  let artistName := artistLookup.getD ""
  let cached : Option (List Nat) :=
    match tryReadAlbumCache fs album artistName with
    | some (d, _) => if d = [] then none else some d
    | none => none
  match cached with
  | some d => (some d, fs)
  | none =>
    match script2 with
    | .miss => (none, fs)
    | .found =>
      match tmp2 with
      | none => (none, fs)
      | some bytes =>
        (some bytes,
          if bytes = [] then fs
          else writeAlbumCache conv fs album artistName bytes)

/-- A response of the `/artwork` handler: image bytes with a MIME type,
or an HTTP error status. -/
inductive ArtResponse where
  | ok (data : List Nat) (mime : String)
  | err (status : Nat)
deriving DecidableEq, Repr

/-- `_BLANK_PNG`: the fixed 1×1 placeholder PNG served when no artwork
can be produced. -/
def blankPng : List Nat :=
  [137, 80, 78, 71, 13, 10, 26, 10, 0, 0, 0, 13, 73, 72, 68, 82, 0, 0, 0, 1,
   0, 0, 0, 1, 8, 4, 0, 0, 0, 181, 28, 12, 2, 0, 0, 0, 11, 73, 68, 65, 84,
   120, 218, 99, 252, 255, 31, 0, 2, 131, 1, 129, 13, 144, 99, 84, 0, 0, 0,
   0, 73, 69, 78, 68, 174, 66, 96, 130]

/-- The cache consultation at the top of `artwork()`: only for a
non-empty album without `refresh=1`, and only a non-empty cached byte
string counts as a hit. -/
def artworkCacheHit (fs : FS) (album artist : String) (refresh : Bool) :
    Option (List Nat × String) :=
  if album ≠ "" ∧ refresh = false then
    match tryReadAlbumCache fs album artist with
    | some (d, m) => if d = [] then none else some (d, m)
    | none => none
  else none

/-- The `artwork()` request handler after parameter resolution
(`album`/`artist`/`title`/`pid` are the values merged from the fresh
probe and the watcher snapshot): serve from cache when hit (re-encoding
to WEBP when possible); else run the current-track script (`script1`,
temp file read `tmp1`): on `NOART`/error fall back to
`_album_art_bytes` for a non-empty album and serve its bytes or the
placeholder PNG; on a script path whose temp file cannot be read,
return HTTP 404; on success cache under the derived key and serve. -/
def artworkGet (conv : List Nat → Option (List Nat)) (fs : FS)
    (album artist title pid : String) (refresh : Bool)
    (script1 : ScriptArt) (tmp1 : Option (List Nat))
    (artistLookup : Option String) (script2 : ScriptArt)
    (tmp2 : Option (List Nat)) : ArtResponse × FS :=
  match artworkCacheHit fs album artist refresh with
  | some (data, mimeCached) =>
    (match conv data with
     | some out => .ok out "image/webp"
     | none => .ok data mimeCached, fs)
  | none =>
    match script1 with
    | .miss =>
      if album ≠ "" then
        let r := albumArtBytes conv fs album artistLookup script2 tmp2
        match r.1 with
        | some data =>
          if data = [] then (.ok blankPng "image/png", r.2)
          else (.ok data (guessImageMime data),
            writeAlbumCache conv r.2 album artist data)
        | none => (.ok blankPng "image/png", r.2)
      else (.ok blankPng "image/png", fs)
    | .found =>
      match tmp1 with
      | none => (.err 404, fs)
      | some data =>
        let keyAlbum := if album ≠ "" then some album
          else if artist ≠ "" ∧ title ≠ "" then some (artist ++ " - " ++ title)
          else if pid ≠ "" then some ("pid_" ++ pid)
          else none
        let fs2 := match keyAlbum with
          | some k => writeAlbumCache conv fs k artist data
          | none => fs
        match conv data with
        | some out => (.ok out "image/webp", fs2)
        | none => (.ok data (guessImageMime data), fs2)

/-- C9 is false as stated: when the current-track script reports a temp
file but reading it fails, `artwork()` returns a bare HTTP 404 instead
of the placeholder.  Concretely, a refresh request with a found script
result and a failed temp-file read produces `err 404`. -/
theorem c9_counterexample :
    (artworkGet (fun _ => none) fsEmpty "" "" "" "" true .found none none
      .miss none).1 = .err 404 := by
  rfl

/-- C9 (amended): the handler returns an error response in exactly one
situation — the current-track script reported artwork but its temp file
could not be read, giving HTTP 404; in every other case the response is
image bytes, and in particular when the cache yields no hit, the
current-track extraction misses and the album-wide scan produces
nothing, the fixed placeholder PNG is returned rather than an error. -/
theorem c9_artwork_no_error (conv : List Nat → Option (List Nat)) (fs : FS)
    (album artist title pid : String) (refresh : Bool)
    (script1 : ScriptArt) (tmp1 : Option (List Nat))
    (artistLookup : Option String) (script2 : ScriptArt)
    (tmp2 : Option (List Nat)) :
    (∀ st, (artworkGet conv fs album artist title pid refresh script1 tmp1
        artistLookup script2 tmp2).1 = .err st →
      script1 = .found ∧ tmp1 = none ∧ st = 404) ∧
      (script1 = .miss →
        (album = "" ∨ refresh = true ∨ tryReadAlbumCache fs album artist = none) →
        (album = "" ∨ optTruthy (albumArtBytes conv fs album artistLookup
          script2 tmp2).1 = false) →
        (artworkGet conv fs album artist title pid refresh script1 tmp1
          artistLookup script2 tmp2).1 = .ok blankPng "image/png") := by
  constructor
  · intro st h
    cases hhit : artworkCacheHit fs album artist refresh with
    | some dm =>
      obtain ⟨d, m⟩ := dm
      simp only [artworkGet.eq_def, hhit] at h
      cases hc : conv d <;> rw [hc] at h <;> exact absurd h (by simp)
    | none =>
      cases script1 with
      | miss =>
        simp only [artworkGet.eq_def, hhit] at h
        by_cases halb : album = ""
        · rw [if_neg (by simpa using halb)] at h
          exact absurd h (by simp)
        · rw [if_pos halb] at h
          cases hr : (albumArtBytes conv fs album artistLookup script2 tmp2).1 with
          | some data =>
            simp only [hr] at h
            by_cases hd : data = []
            · rw [if_pos hd] at h
              exact absurd h (by simp)
            · rw [if_neg hd] at h
              exact absurd h (by simp)
          | none =>
            simp only [hr] at h
            exact absurd h (by simp)
      | found =>
        cases tmp1 with
        | none =>
          refine ⟨rfl, rfl, ?_⟩
          simp only [artworkGet.eq_def, hhit] at h
          exact (ArtResponse.err.injEq _ _).mp h.symm
        | some data =>
          simp only [artworkGet.eq_def, hhit] at h
          cases hc : conv data <;> rw [hc] at h <;> exact absurd h (by simp)
  · intro hs1 hnohit hnoart
    subst hs1
    have hhit : artworkCacheHit fs album artist refresh = none := by
      unfold artworkCacheHit
      rcases hnohit with h | h | h
      · rw [if_neg (by simp [h])]
      · rw [if_neg (by simp [h])]
      · by_cases hcond : album ≠ "" ∧ refresh = false
        · rw [if_pos hcond, h]
        · rw [if_neg hcond]
    simp only [artworkGet.eq_def, hhit]
    by_cases halb : album = ""
    · rw [if_neg (by simpa using halb)]
    · rw [if_pos halb]
      rcases hnoart with h | h
      · exact absurd h halb
      · cases hr : (albumArtBytes conv fs album artistLookup script2 tmp2).1 with
        | some data =>
          rw [hr] at h
          have hd : data = [] := by
            simpa [optTruthy] using h
          simp only [hr]
          rw [if_pos hd]
        | none =>
          simp only [hr]

/-- Witness for `c9_artwork_no_error`: with an empty cache, a missing
current track and a missing album scan, the handler serves the
placeholder PNG. -/
theorem c9_artwork_no_error_witness :
    (artworkGet (fun _ => none) fsEmpty "" "" "" "" false .miss none none
      .miss none).1 = .ok blankPng "image/png" :=
  (c9_artwork_no_error (fun _ => none) fsEmpty "" "" "" "" false .miss none
    none .miss none).2 rfl (Or.inl rfl) (Or.inl rfl)

end MusicApp
